import Mathlib

/-! CeresMeta: storage records, HTTP forwarding, drop-table procedure, node picker.

A shallow embedding of three source files of the metadata coordinator:

* `server/storage/types.go`: the native records and their conversions to and
  from the protobuf records of package `clusterpb`;
* `server/service/http/forward.go`: `formatHTTPAddr` and `forwardToLeader`;
* `server/coordinator/procedure/drop_table.go`: `DropTableProcedure`;

and a model of the node picker, of which only the test
(`server/coordinator/scheduler/nodepicker/node_picker_test.go`) is among the
source files, written from the specification.

Conventions of the embedding.

* Go unsigned integers (`uint32`, `uint64`) are natural numbers.  Every
  conversion between them in these files is between types of the same width
  (`uint32(view.ClusterID)` with `ClusterID` a `uint32`), so none truncates.
* Go `int` and the `int32` protobuf enums are integers.
* A Go slice is the list of its elements (a nil slice and an empty slice are
  the same list).
* A Go pointer is an `Option`; a function that dereferences a pointer returns
  `none` where Go panics on nil.
* A Go string is the list of its characters where the code inspects it
  (`formatHTTPAddr`), and a Lean `String` where it is only carried along.
-/

/-! ## Package `clusterpb` (generated protobuf records) -/

namespace clusterpb

/-- The numeric values of the enum constants of package `clusterpb`.  The
package is generated code outside this repository; the conversions only
compare against its named constants, so the numbering is left open.  The two
constants of each enum are distinct: Go rejects a `switch` that lists the same
constant in two cases, and each conversion lists both. -/
structure Enums where
  ShardRole_LEADER : Int
  ShardRole_FOLLOWER : Int
  ClusterTopology_EMPTY : Int
  ClusterTopology_STABLE : Int
  NodeState_ONLINE : Int
  NodeState_OFFLINE : Int
  shardRole_ne : ShardRole_LEADER ≠ ShardRole_FOLLOWER
  clusterState_ne : ClusterTopology_EMPTY ≠ ClusterTopology_STABLE
  nodeState_ne : NodeState_ONLINE ≠ NodeState_OFFLINE

/-- The numbering protobuf gives when the constants are declared in the order
the conversions list them (first constant 0, second constant 1). -/
def Enums.declared : Enums where
  ShardRole_LEADER := 0
  ShardRole_FOLLOWER := 1
  ClusterTopology_EMPTY := 0
  ClusterTopology_STABLE := 1
  NodeState_ONLINE := 0
  NodeState_OFFLINE := 1
  shardRole_ne := by decide
  clusterState_ne := by decide
  nodeState_ne := by decide

/-- Record `clusterpb.Shard`. -/
structure Shard where
  Id : Nat
  ShardRole : Int
  Node : String
  deriving DecidableEq, Repr

/-- Record `clusterpb.ClusterTopology`.  `ChangeNodeShards` is only ever set
to nil by this code; it is kept as a list without content. -/
structure ClusterTopology where
  ClusterId : Nat
  Version : Nat
  State : Int
  ShardView : List (Option Shard)
  Cause : String
  CreatedAt : Nat
  ChangeNodeShards : List Unit
  deriving DecidableEq, Repr

/-- Record `clusterpb.NodeStats`. -/
structure NodeStats where
  Lease : Nat
  Zone : String
  NodeVersion : String
  deriving DecidableEq, Repr

/-- Record `clusterpb.Node`; `NodeStats` is a pointer field. -/
structure Node where
  Name : String
  NodeStats : Option NodeStats
  CreateTime : Nat
  LastTouchTime : Nat
  State : Int
  deriving DecidableEq, Repr

/-- Record `clusterpb.Cluster`. -/
structure Cluster where
  Id : Nat
  Name : String
  MinNodeCount : Nat
  ReplicationFactor : Nat
  ShardTotal : Nat
  CreatedAt : Nat
  deriving DecidableEq, Repr

/-- Record `clusterpb.Schema`. -/
structure Schema where
  Id : Nat
  ClusterId : Nat
  Name : String
  CreatedAt : Nat
  deriving DecidableEq, Repr

/-- Record `clusterpb.Table`. -/
structure Table where
  Id : Nat
  Name : String
  SchemaId : Nat
  ShardId : Nat
  Desc : String
  CreatedAt : Nat
  deriving DecidableEq, Repr

/-- Record `clusterpb.ShardTopology`. -/
structure ShardTopology where
  ShardId : Nat
  TableIds : List Nat
  Version : Nat
  CreatedAt : Nat
  deriving DecidableEq, Repr

end clusterpb

/-! ## Package `storage` (`server/storage/types.go`) -/

namespace storage

abbrev ClusterID := Nat
abbrev SchemaID := Nat
abbrev ShardID := Nat
abbrev TableID := Nat
abbrev ClusterState := Int
abbrev ShardRole := Int
abbrev NodeState := Int

/-- `ClusterStateEmpty ClusterState = iota + 1`. -/
def ClusterStateEmpty : ClusterState := 1
def ClusterStateStable : ClusterState := 2

/-- `ShardRoleLeader ShardRole = iota + 1`. -/
def ShardRoleLeader : ShardRole := 1
def ShardRoleFollower : ShardRole := 2

/-- `NodeStateOnline NodeState = iota + 1`. -/
def NodeStateOnline : NodeState := 1
def NodeStateOffline : NodeState := 2

structure ShardNode where
  ID : ShardID
  ShardRole : ShardRole
  NodeName : String
  deriving DecidableEq, Repr

structure ClusterView where
  ClusterID : ClusterID
  Version : Nat
  State : ClusterState
  ShardNodes : List ShardNode
  CreatedAt : Nat
  deriving DecidableEq, Repr

structure NodeStats where
  Lease : Nat
  Zone : String
  NodeVersion : String
  deriving DecidableEq, Repr

structure Node where
  Name : String
  NodeStats : NodeStats
  CreatedAt : Nat
  LastTouchTime : Nat
  State : NodeState
  deriving DecidableEq, Repr

/-- `ConvertShardRolePB`: a `switch` over the two named constants, with
`ShardRoleFollower` after it for every other value. -/
def ConvertShardRolePB (pb : clusterpb.Enums) (role : Int) : ShardRole :=
  if role = pb.ShardRole_LEADER then ShardRoleLeader
  else if role = pb.ShardRole_FOLLOWER then ShardRoleFollower
  else ShardRoleFollower

def convertClusterStateToPB (pb : clusterpb.Enums) (state : ClusterState) : Int :=
  if state = ClusterStateEmpty then pb.ClusterTopology_EMPTY
  else if state = ClusterStateStable then pb.ClusterTopology_STABLE
  else pb.ClusterTopology_EMPTY

def convertClusterStatePB (pb : clusterpb.Enums) (state : Int) : ClusterState :=
  if state = pb.ClusterTopology_EMPTY then ClusterStateEmpty
  else if state = pb.ClusterTopology_STABLE then ClusterStateStable
  else ClusterStateEmpty

def convertShardRoleToPB (pb : clusterpb.Enums) (role : ShardRole) : Int :=
  if role = ShardRoleLeader then pb.ShardRole_LEADER
  else if role = ShardRoleFollower then pb.ShardRole_FOLLOWER
  else pb.ShardRole_FOLLOWER

def convertShardNodeToPB (pb : clusterpb.Enums) (shardNode : ShardNode) : clusterpb.Shard :=
  { Id := shardNode.ID
    ShardRole := convertShardRoleToPB pb shardNode.ShardRole
    Node := shardNode.NodeName }

/-- `convertShardNodePB` reads the fields of `*clusterpb.Shard`; a nil pointer
panics. -/
def convertShardNodePB (pb : clusterpb.Enums) : Option clusterpb.Shard → Option ShardNode
  | none => none
  | some shardNode =>
    some { ID := shardNode.Id
           ShardRole := ConvertShardRolePB pb shardNode.ShardRole
           NodeName := shardNode.Node }

/-- The loop of `convertClusterViewToPB`: each shard node is converted and the
address of the converted record is appended. -/
def convertShardNodesToPB (pb : clusterpb.Enums) : List ShardNode → List (Option clusterpb.Shard)
  | [] => []
  | shardNode :: rest => some (convertShardNodeToPB pb shardNode) :: convertShardNodesToPB pb rest

def convertClusterViewToPB (pb : clusterpb.Enums) (view : ClusterView) : clusterpb.ClusterTopology :=
  { ClusterId := view.ClusterID
    Version := view.Version
    State := convertClusterStateToPB pb view.State
    ShardView := convertShardNodesToPB pb view.ShardNodes
    Cause := ""
    CreatedAt := view.CreatedAt
    ChangeNodeShards := [] }

/-- The loop of `convertClusterViewPB`: each pointer is converted in turn and
the result appended; the first nil pointer panics. -/
def convertShardNodesPB (pb : clusterpb.Enums) : List (Option clusterpb.Shard) → Option (List ShardNode)
  | [] => some []
  | shardNodePB :: rest =>
    match convertShardNodePB pb shardNodePB with
    | none => none
    | some shardNode =>
      match convertShardNodesPB pb rest with
      | none => none
      | some shardNodes => some (shardNode :: shardNodes)

def convertClusterViewPB (pb : clusterpb.Enums) : Option clusterpb.ClusterTopology → Option ClusterView
  | none => none
  | some view =>
    match convertShardNodesPB pb view.ShardView with
    | none => none
    | some shardNodes =>
      some { ClusterID := view.ClusterId
             Version := view.Version
             State := convertClusterStatePB pb view.State
             ShardNodes := shardNodes
             CreatedAt := view.CreatedAt }

def convertNodeStatsToPB (stats : NodeStats) : clusterpb.NodeStats :=
  { Lease := stats.Lease, Zone := stats.Zone, NodeVersion := stats.NodeVersion }

def convertNodeStatsPB : Option clusterpb.NodeStats → Option NodeStats
  | none => none
  | some stats => some { Lease := stats.Lease, Zone := stats.Zone, NodeVersion := stats.NodeVersion }

def convertNodeStateToPB (pb : clusterpb.Enums) (state : NodeState) : Int :=
  if state = NodeStateOnline then pb.NodeState_ONLINE
  else if state = NodeStateOffline then pb.NodeState_OFFLINE
  else pb.NodeState_OFFLINE

def convertNodeStatePB (pb : clusterpb.Enums) (state : Int) : NodeState :=
  if state = pb.NodeState_ONLINE then NodeStateOnline
  else if state = pb.NodeState_OFFLINE then NodeStateOffline
  else NodeStateOffline

def convertNodeToPB (pb : clusterpb.Enums) (node : Node) : clusterpb.Node :=
  { Name := node.Name
    NodeStats := some (convertNodeStatsToPB node.NodeStats)
    CreateTime := node.CreatedAt
    LastTouchTime := node.LastTouchTime
    State := convertNodeStateToPB pb node.State }

def convertNodePB (pb : clusterpb.Enums) : Option clusterpb.Node → Option Node
  | none => none
  | some node =>
    match convertNodeStatsPB node.NodeStats with
    | none => none
    | some nodeStats =>
      some { Name := node.Name
             NodeStats := nodeStats
             CreatedAt := node.CreateTime
             LastTouchTime := node.LastTouchTime
             State := convertNodeStatePB pb node.State }

/-- The state is one of the two declared `ClusterState` constants. -/
def ClusterState.declared (state : ClusterState) : Prop :=
  state = ClusterStateEmpty ∨ state = ClusterStateStable

/-- The role is one of the two declared `ShardRole` constants. -/
def ShardRole.declared (role : ShardRole) : Prop :=
  role = ShardRoleLeader ∨ role = ShardRoleFollower

/-- The state is one of the two declared `NodeState` constants. -/
def NodeState.declared (state : NodeState) : Prop :=
  state = NodeStateOnline ∨ state = NodeStateOffline

instance (state : ClusterState) : Decidable (ClusterState.declared state) := by
  unfold ClusterState.declared; infer_instance

instance (role : ShardRole) : Decidable (ShardRole.declared role) := by
  unfold ShardRole.declared; infer_instance

instance (state : NodeState) : Decidable (NodeState.declared state) := by
  unfold NodeState.declared; infer_instance

/-- Every enum field of the view holds a declared constant: the state of the
view and the role of each shard node. -/
def ClusterView.declared (view : ClusterView) : Prop :=
  ClusterState.declared view.State ∧
    ∀ shardNode ∈ view.ShardNodes, ShardRole.declared shardNode.ShardRole

/-- What decoding makes of an encoded shard node: the role is kept when it is
`ShardRoleLeader` and is `ShardRoleFollower` otherwise. -/
def ShardNode.decoded (shardNode : ShardNode) : ShardNode :=
  { shardNode with
    ShardRole := if shardNode.ShardRole = ShardRoleLeader then ShardRoleLeader
                 else ShardRoleFollower }

structure Cluster where
  ID : ClusterID
  Name : String
  MinNodeCount : Nat
  ReplicationFactor : Nat
  ShardTotal : Nat
  CreatedAt : Nat
  deriving DecidableEq, Repr

structure Schema where
  ID : SchemaID
  ClusterID : ClusterID
  Name : String
  CreatedAt : Nat
  deriving DecidableEq, Repr

structure Table where
  ID : TableID
  Name : String
  SchemaID : SchemaID
  CreatedAt : Nat
  deriving DecidableEq, Repr

structure ShardView where
  ShardID : ShardID
  Version : Nat
  TableIDs : List TableID
  CreatedAt : Nat
  deriving DecidableEq, Repr

def convertClusterPB : Option clusterpb.Cluster → Option Cluster
  | none => none
  | some cluster =>
    some { ID := cluster.Id
           Name := cluster.Name
           MinNodeCount := cluster.MinNodeCount
           ReplicationFactor := cluster.ReplicationFactor
           ShardTotal := cluster.ShardTotal
           CreatedAt := cluster.CreatedAt }

def convertClusterToPB (cluster : Cluster) : clusterpb.Cluster :=
  { Id := cluster.ID
    Name := cluster.Name
    MinNodeCount := cluster.MinNodeCount
    ReplicationFactor := cluster.ReplicationFactor
    ShardTotal := cluster.ShardTotal
    CreatedAt := cluster.CreatedAt }

def convertSchemaToPB (schema : Schema) : clusterpb.Schema :=
  { Id := schema.ID
    ClusterId := schema.ClusterID
    Name := schema.Name
    CreatedAt := schema.CreatedAt }

def convertSchemaPB : Option clusterpb.Schema → Option Schema
  | none => none
  | some schema =>
    some { ID := schema.Id
           ClusterID := schema.ClusterId
           Name := schema.Name
           CreatedAt := schema.CreatedAt }

/-- `convertTableToPB`: both `SchemaId` and `ShardId` are written from
`table.SchemaID`. -/
def convertTableToPB (table : Table) : clusterpb.Table :=
  { Id := table.ID
    Name := table.Name
    SchemaId := table.SchemaID
    ShardId := table.SchemaID
    Desc := ""
    CreatedAt := table.CreatedAt }

def convertTablePB : Option clusterpb.Table → Option Table
  | none => none
  | some table =>
    some { ID := table.Id
           Name := table.Name
           SchemaID := table.SchemaId
           CreatedAt := table.CreatedAt }

/-- The loop of `convertShardViewToPB`: each id is appended as a `uint64`. -/
def convertTableIDsToPB : List TableID → List Nat
  | [] => []
  | id :: rest => id :: convertTableIDsToPB rest

def convertShardViewToPB (view : ShardView) : clusterpb.ShardTopology :=
  { ShardId := view.ShardID
    TableIds := convertTableIDsToPB view.TableIDs
    Version := view.Version
    CreatedAt := view.CreatedAt }

/-- The loop of `convertShardViewPB`: each id is appended as a `TableID`. -/
def convertTableIDsPB : List Nat → List TableID
  | [] => []
  | id :: rest => id :: convertTableIDsPB rest

def convertShardViewPB : Option clusterpb.ShardTopology → Option ShardView
  | none => none
  | some shardTopology =>
    some { ShardID := shardTopology.ShardId
           Version := shardTopology.Version
           TableIDs := convertTableIDsPB shardTopology.TableIds
           CreatedAt := shardTopology.CreatedAt }

end storage

/-! ## Go `error` values -/

/-- The errors these files create or pass on.  `collaborator kind` is an
error returned by a collaborator (the cluster, the dispatcher); the event
errors are the ones `fsm.Event` returns when the event does not apply;
`WithMessage` is `errors.WithMessage` (and `errors.WithMessagef` with its
string argument filled in); `WithMessagev` is `errors.WithMessagef` with one
error argument formatted by `%v`; `NoAvailableNodes` is the error of the node
picker. -/
inductive GoError where
  | ErrParseLeaderAddr
  | ErrShardLeaderNotFound
  | NoAvailableNodes
  | collaborator (kind : String)
  | InvalidEventError (event : String) (state : String)
  | UnknownEventError (event : String)
  | NoTransitionError
  | WithMessage (cause : GoError) (msg : String)
  | WithMessagev (cause : GoError) (format : String) (arg : GoError)
  deriving DecidableEq, Repr

namespace GoError

/-- `errors.Cause`: the error at the bottom of the chain of wrappers. -/
def Cause : GoError → GoError
  | WithMessage cause _ => Cause cause
  | WithMessagev cause _ _ => Cause cause
  | e => e

end GoError

/-! ## Package `http` (`server/service/http/forward.go`) -/

namespace http

/-- `strings.Split(s, sep)` for a separator of one character: the pieces of
`s` between the occurrences of the separator, in order; a string without the
separator (the empty string too) gives one piece. -/
def stringsSplit (sep : Char) : List Char → List (List Char)
  | [] => [[]]
  | c :: cs =>
    if c = sep then [] :: stringsSplit sep cs
    else
      match stringsSplit sep cs with
      | [] => [[c]]
      | piece :: pieces => (c :: piece) :: pieces

/-- `strings.Join(elems, sep)`. -/
def stringsJoin (sep : List Char) : List (List Char) → List Char
  | [] => []
  | [piece] => piece
  | piece :: rest => piece ++ sep ++ stringsJoin sep rest

/-- `strconv.Itoa(i)`: the decimal rendering, with a leading `-` for a
negative number. -/
def strconvItoa (i : Int) : List Char :=
  if i < 0 then '-' :: Nat.toDigits 10 i.natAbs else Nat.toDigits 10 i.toNat

/-- `formatHTTPAddr(grpcAddr, httpPort)`, returning the pair
`(httpAddr, err)`.  The line `append(leaderAddr[:0], leaderAddr[0:]...)`
appends the whole slice onto its own empty prefix. -/
def formatHTTPAddr (grpcAddr : List Char) (httpPort : Int) : List Char × Option GoError :=
  let leaderAddr := stringsSplit ':' grpcAddr
  if leaderAddr.length ≠ 3 then
    ([], some (GoError.WithMessage GoError.ErrParseLeaderAddr
      ("gprc addr:" ++ String.mk grpcAddr)))
  else
    let leaderAddr := leaderAddr.set 2 (strconvItoa httpPort)
    let leaderAddr := leaderAddr.take 0 ++ leaderAddr.drop 0
    let httpAddr := stringsJoin [':'] leaderAddr
    (httpAddr, none)

/-- The part of a string up to and including its last `:` (the whole string
is dropped when it has none). -/
def throughLastColon (s : List Char) : List Char :=
  (s.reverse.dropWhile (fun c => c ≠ ':')).reverse

/-- The reference definition of the address format, in the words of the
specification: with exactly two `:` in `grpcAddr`, everything after the last
`:` is replaced by the decimal rendering of `httpPort` and there is no error;
otherwise the result is the empty string and the error has cause
`ErrParseLeaderAddr`.  The second component is the cause of the error. -/
def formatHTTPAddr_ref (grpcAddr : List Char) (httpPort : Int) : List Char × Option GoError :=
  if grpcAddr.count ':' = 2 then
    (throughLastColon grpcAddr ++ strconvItoa httpPort, none)
  else
    ([], some GoError.ErrParseLeaderAddr)

/-- The fields of `url.URL` a forwarded request carries. -/
structure URL where
  Scheme : String
  Host : String
  Path : String
  RawQuery : String
  deriving DecidableEq, Repr

/-- The fields of `http.Request` a forwarded request carries.  `TLS` is a
pointer of which only nil or not is read; the body is its content.  The
request and its URL are the records behind the pointers (the server hands a
handler a request with a URL). -/
structure Request where
  Method : String
  URL : URL
  Header : List (String × List String)
  Body : String
  RequestURI : String
  TLS : Option Unit
  deriving DecidableEq, Repr

/-- What is read of an `http.Response`. -/
structure Response where
  StatusCode : Nat
  Body : String
  deriving DecidableEq, Repr

/-- The member `GetLeader` names as leader; only its endpoint is read. -/
structure Member where
  Endpoint : String
  deriving DecidableEq, Repr

/-- The answer of `member.GetLeader`: the leader (a pointer) and whether the
leader is the local member. -/
structure GetLeaderResp where
  Leader : Option Member
  IsLocal : Bool
  deriving DecidableEq, Repr

/-- Record `ForwardClient`.  Its two collaborators are given by what they
return: `member` is the answer of `s.member.GetLeader(ctx)`, `client` is
`s.client.Do`. -/
structure ForwardClient where
  member : GetLeaderResp × Option GoError
  client : Request → Option Response × Option GoError
  port : Int

/-- `getForwardedAddr`, returning `(addr, isLeader, err)`; `none` is the
panic on a nil leader.  The endpoint is handed to `formatHTTPAddr` as its
list of characters. -/
def ForwardClient.getForwardedAddr (s : ForwardClient) :
    Option (List Char × Bool × Option GoError) :=
  let (member, err) := s.member
  match err with
  | some err => some ([], false, some (GoError.WithMessage err "get forwarded addr"))
  | none =>
    if member.IsLocal then some ([], true, none)
    else
      match member.Leader with
      | none => none
      | some leader =>
        let (httpAddr, err) := formatHTTPAddr leader.Endpoint.toList s.port
        match err with
        | some err => some ([], false, some (GoError.WithMessage err "format http addr"))
        | none => some (httpAddr, false, none)

/-- What `forwardToLeader` returns and leaves behind: its three results, the
request as it is after the call, and the request handed to `client.Do` if it
was called. -/
structure Forwarded where
  resp : Option Response
  isLeader : Bool
  err : Option GoError
  req : Request
  sent : Option Request
  deriving DecidableEq, Repr

/-- `forwardToLeader(req)`; the two log lines are left out. -/
def ForwardClient.forwardToLeader (s : ForwardClient) (req : Request) : Option Forwarded :=
  match s.getForwardedAddr with
  | none => none
  | some (addr, isLeader, err) =>
    match err with
    | some err => some { resp := none, isLeader := false, err := some err, req := req, sent := none }
    | none =>
      if isLeader then
        some { resp := none, isLeader := true, err := none, req := req, sent := none }
      else
        let req := { req with RequestURI := "" }
        let req :=
          if req.TLS = none then { req with URL := { req.URL with Scheme := "http" } }
          else { req with URL := { req.URL with Scheme := "https" } }
        let req := { req with URL := { req.URL with Host := String.mk addr } }
        let (resp, err) := s.client req
        match err with
        | some err =>
          some { resp := none, isLeader := false, err := some err, req := req, sent := some req }
        | none => some { resp := resp, isLeader := false, err := none, req := req, sent := some req }

/-- A request `GET /debug?x=1` received without TLS. -/
def exampleHTTPRequest : Request :=
  { Method := "GET"
    URL := { Scheme := "", Host := "", Path := "/debug", RawQuery := "x=1" }
    Header := [("Accept", ["*/*"])]
    Body := ""
    RequestURI := "/debug?x=1"
    TLS := none }

/-- A client on a follower: the leader is the remote member at
`http://127.0.0.1:8831`, the configured port is 5000, and the leader answers
every request with status 200. -/
def exampleForwardClient : ForwardClient :=
  { member := ({ Leader := some { Endpoint := "http://127.0.0.1:8831" }, IsLocal := false }, none)
    client := fun _ => (some { StatusCode := 200, Body := "ok" }, none)
    port := 5000 }

end http

/-! ## Package `procedure` (`server/coordinator/procedure/drop_table.go`) -/

namespace procedure

/-- The procedure states of package `procedure` (`StateInit`, ...), declared
next to the `Procedure` interface. -/
inductive State where
  | StateInit
  | StateRunning
  | StateFinished
  | StateFailed
  | StateCancelled
  deriving DecidableEq, Repr

def eventDropTablePrepare : String := "EventDropTablePrepare"
def eventDropTableFailed : String := "EventDropTableFailed"
def eventDropTableSuccess : String := "EventDropTableSuccess"

def stateDropTableBegin : String := "StateDropTableBegin"
def stateDropTableWaiting : String := "StateDropTableWaiting"
def stateDropTableFinish : String := "StateDropTableFinish"
def stateDropTableFailed : String := "StateDropTableFailed"

/-- One entry of `fsm.Events`. -/
structure EventDesc where
  Name : String
  Src : List String
  Dst : String
  deriving DecidableEq, Repr

def dropTableEvents : List EventDesc :=
  [ { Name := eventDropTablePrepare, Src := [stateDropTableBegin], Dst := stateDropTableWaiting },
    { Name := eventDropTableSuccess, Src := [stateDropTableWaiting], Dst := stateDropTableFinish },
    { Name := eventDropTableFailed, Src := [stateDropTableWaiting], Dst := stateDropTableFailed } ]

/-- Record `cluster.TableInfo`. -/
structure TableInfo where
  ID : Nat
  Name : String
  SchemaID : Nat
  SchemaName : String
  deriving DecidableEq, Repr

/-- Record `cluster.ShardInfo`; `Role` is a `clusterpb.ShardRole`. -/
structure ShardInfo where
  ID : Nat
  Role : Int
  Version : Nat
  deriving DecidableEq, Repr

/-- Record `eventdispatch.UpdateShardInfo`. -/
structure UpdateShardInfo where
  CurrShardInfo : ShardInfo
  PrevVersion : Nat
  deriving DecidableEq, Repr

/-- Record `eventdispatch.DropTableOnShardRequest`. -/
structure DropTableOnShardRequest where
  UpdateShardInfo : UpdateShardInfo
  TableInfo : TableInfo
  deriving DecidableEq, Repr

/-- The version update `cluster.DropTable` reports. -/
structure ShardVersionUpdate where
  ShardID : Nat
  CurrVersion : Nat
  PrevVersion : Nat
  deriving DecidableEq, Repr

/-- The result of `cluster.DropTable`. -/
structure DropTableResult where
  ShardVersionUpdate : ShardVersionUpdate
  deriving DecidableEq, Repr

/-- What the getters of the table `cluster.GetTable` returns give:
`GetShardID()`, `GetID()`, `GetName()`, `GetSchemaID()`, `GetSchemaName()`
and `GetInfo()`. -/
structure Table where
  ShardID : Nat
  ID : Nat
  Name : String
  SchemaID : Nat
  SchemaName : String
  Info : TableInfo
  deriving DecidableEq, Repr

/-- The record `shard.GetLeader()` points to; only `Node` is read. -/
structure Leader where
  Node : String
  deriving DecidableEq, Repr

/-- The shard `cluster.GetShardByID` returns; `GetLeader` is nil when the
shard has no leader. -/
structure Shard where
  GetLeader : Option Leader
  deriving DecidableEq, Repr

/-- The fields of `metaservicepb.DropTableRequest` the procedure reads. -/
structure DropTableRequest where
  SchemaName : String
  Name : String
  deriving DecidableEq, Repr

/-- What a run does that can be seen from outside, in the order it happens:
the calls on the cluster and the dispatcher with their arguments, the calls
of the two lifecycle callbacks, each `updateState`, and each log line. -/
inductive Effect where
  | GetTable (schemaName : String) (name : String)
  | DropTable (schemaName : String) (name : String)
  | GetShardByID (id : Nat)
  | DropTableOnShard (node : String) (req : DropTableOnShardRequest)
  | onSucceeded (ret : TableInfo)
  | onFailed (err : Option GoError)
  | updateState (state : State)
  | log (level : String) (msg : String)
  deriving DecidableEq, Repr

/-- The methods of `*cluster.Cluster` the procedure calls.  The cluster is a
collaborator outside these files: each method is given by the values it
returns, which may depend on everything that happened before the call. -/
structure Cluster where
  GetTable : List Effect → String → String → Table × Bool × Option GoError
  DropTable : List Effect → String → String → DropTableResult × Option GoError
  GetShardByID : List Effect → Nat → Shard × Option GoError

/-- The method of `eventdispatch.Dispatch` the procedure calls, given by the
error it returns (nil on success); the answer may differ from one call to the
next. -/
structure Dispatch where
  DropTableOnShard : List Effect → String → DropTableOnShardRequest → Option GoError

/-- Record `dropTableCallbackRequest`, the argument of the callbacks (the
context is carried along only). -/
structure dropTableCallbackRequest where
  cluster : Cluster
  dispatch : Dispatch
  rawReq : DropTableRequest
  onSucceeded : List Effect → TableInfo → Option GoError
  onFailed : List Effect → Option GoError → Option GoError
  ret : TableInfo

/-- The fields of `fsm.Event` a callback can read or set. -/
structure FsmEvent where
  Event : String
  Src : String
  Dst : String
  Err : Option GoError
  canceled : Bool
  deriving DecidableEq, Repr

/-- `(*fsm.Event).Cancel(err)`. -/
def FsmEvent.Cancel (event : FsmEvent) (err : GoError) : FsmEvent :=
  { event with canceled := true, Err := some err }

/-- Modelled from the spec: `cancelEventWithLog` is a helper of package
`procedure` declared outside `drop_table.go`.  By its name and its use in the
callbacks (a failed step must make `Start` fail, section 4.F) it logs the
message as an error and cancels the event with the error wrapped in that
message. -/
def cancelEventWithLog (event : FsmEvent) (err : GoError) (msg : String)
    (trace : List Effect) : FsmEvent × List Effect :=
  (event.Cancel (GoError.WithMessage err msg), trace ++ [Effect.log "error" msg])

def dropTablePrepareCallback (pb : clusterpb.Enums) (event : FsmEvent)
    (request : dropTableCallbackRequest) (trace : List Effect) :
    FsmEvent × dropTableCallbackRequest × List Effect :=
  let (table, «exists», err) :=
    request.cluster.GetTable trace request.rawReq.SchemaName request.rawReq.Name
  let trace := trace ++ [Effect.GetTable request.rawReq.SchemaName request.rawReq.Name]
  match err with
  | some err =>
    let (event, trace) := cancelEventWithLog event err "cluster get table" trace
    (event, request, trace)
  | none =>
  if !«exists» then
    (event, request, trace ++ [Effect.log "warn" "drop non-existing table"])
  else
  let (result, err) :=
    request.cluster.DropTable trace request.rawReq.SchemaName request.rawReq.Name
  let trace := trace ++ [Effect.DropTable request.rawReq.SchemaName request.rawReq.Name]
  match err with
  | some err =>
    let (event, trace) := cancelEventWithLog event err "cluster drop table" trace
    (event, request, trace)
  | none =>
  let (shard, err) := request.cluster.GetShardByID trace table.ShardID
  let trace := trace ++ [Effect.GetShardByID table.ShardID]
  match err with
  | some err =>
    let (event, trace) := cancelEventWithLog event err "cluster get shard by id" trace
    (event, request, trace)
  | none =>
  match shard.GetLeader with
  | none =>
    let (event, trace) :=
      cancelEventWithLog event GoError.ErrShardLeaderNotFound "can\x27t find leader" trace
    (event, request, trace)
  | some leader =>
  let req : DropTableOnShardRequest :=
    { UpdateShardInfo :=
        { CurrShardInfo :=
            { ID := result.ShardVersionUpdate.ShardID
              Role := pb.ShardRole_LEADER
              Version := result.ShardVersionUpdate.CurrVersion }
          PrevVersion := result.ShardVersionUpdate.PrevVersion }
      TableInfo :=
        { ID := table.ID
          Name := table.Name
          SchemaID := table.SchemaID
          SchemaName := table.SchemaName } }
  let err := request.dispatch.DropTableOnShard trace leader.Node req
  let trace := trace ++ [Effect.DropTableOnShard leader.Node req]
  match err with
  | some err =>
    let (event, trace) := cancelEventWithLog event err "dispatch drop table on shard" trace
    (event, request, trace)
  | none => (event, { request with ret := table.Info }, trace)

def dropTableSuccessCallback (event : FsmEvent) (req : dropTableCallbackRequest)
    (trace : List Effect) : FsmEvent × dropTableCallbackRequest × List Effect :=
  let err := req.onSucceeded trace req.ret
  let trace := trace ++ [Effect.onSucceeded req.ret]
  match err with
  | some _ => (event, req, trace ++ [Effect.log "error" "exec success callback failed"])
  | none => (event, req, trace)

def dropTableFailedCallback (event : FsmEvent) (req : dropTableCallbackRequest)
    (trace : List Effect) : FsmEvent × dropTableCallbackRequest × List Effect :=
  let err := req.onFailed trace event.Err
  let trace := trace ++ [Effect.onFailed event.Err]
  match err with
  | some _ => (event, req, trace ++ [Effect.log "error" "exec failed callback failed"])
  | none => (event, req, trace)

/-- The map `dropTableCallbacks`.  Its keys are event names, which `fsm.NewFSM`
registers as callbacks run after the event (a key that is neither a state
name nor prefixed with `before_`, `leave_`, `enter_` or `after_`). -/
def dropTableCallbacks (pb : clusterpb.Enums) (name : String) :
    Option (FsmEvent → dropTableCallbackRequest → List Effect →
      FsmEvent × dropTableCallbackRequest × List Effect) :=
  if name = eventDropTablePrepare then some (dropTablePrepareCallback pb)
  else if name = eventDropTableFailed then some dropTableFailedCallback
  else if name = eventDropTableSuccess then some dropTableSuccessCallback
  else none

/-- The state of the `fsm.FSM` built by `NewDropTableProcedure` (its events
and callbacks are the two tables above). -/
structure FSM where
  current : String
  deriving DecidableEq, Repr

/-- The step of `fsm.Event` that runs the callback registered after the
event, if there is one. -/
def afterEventCallbacks (pb : clusterpb.Enums) (e : FsmEvent)
    (req : dropTableCallbackRequest) (trace : List Effect) :
    FsmEvent × dropTableCallbackRequest × List Effect :=
  match dropTableCallbacks pb e.Event with
  | some fn => fn e req trace
  | none => (e, req, trace)

/-- `(*fsm.FSM).Event(event, req)` of the library `looplab/fsm`, for the
machine of this procedure: an event with no transition from the current state
returns `InvalidEventError` (`UnknownEventError` when no transition has that
name) and changes nothing; otherwise the current state becomes the
destination, the callback registered after the event runs, and the error the
callback left in the event (nil if none) is returned.  No callback is
registered before the event or on leaving or entering a state, and no
transition is asynchronous. -/
def FSM.Event (pb : clusterpb.Enums) (f : FSM) (event : String)
    (req : dropTableCallbackRequest) (trace : List Effect) :
    Option GoError × FSM × dropTableCallbackRequest × List Effect :=
  match dropTableEvents.find? (fun d => d.Name == event && d.Src.contains f.current) with
  | none =>
    if dropTableEvents.any (fun d => d.Name == event) then
      (some (GoError.InvalidEventError event f.current), f, req, trace)
    else
      (some (GoError.UnknownEventError event), f, req, trace)
  | some d =>
    let e : FsmEvent :=
      { Event := event, Src := f.current, Dst := d.Dst, Err := none, canceled := false }
    if f.current = d.Dst then
      let (_, req, trace) := afterEventCallbacks pb e req trace
      (some GoError.NoTransitionError, f, req, trace)
    else
      let f : FSM := { current := d.Dst }
      let (e, req, trace) := afterEventCallbacks pb e req trace
      (e.Err, f, req, trace)

structure DropTableProcedure where
  id : Nat
  fsm : FSM
  cluster : Cluster
  dispatch : Dispatch
  req : DropTableRequest
  onSucceeded : List Effect → TableInfo → Option GoError
  onFailed : List Effect → Option GoError → Option GoError
  state : State

def NewDropTableProcedure (dispatch : Dispatch) (cluster : Cluster) (id : Nat)
    (req : DropTableRequest) (onSucceeded : List Effect → TableInfo → Option GoError)
    (onFailed : List Effect → Option GoError → Option GoError) : DropTableProcedure :=
  { id := id, fsm := { current := stateDropTableBegin }, cluster := cluster,
    dispatch := dispatch, req := req, onSucceeded := onSucceeded, onFailed := onFailed,
    state := State.StateInit }

def DropTableProcedure.State (p : DropTableProcedure) : State := p.state

def DropTableProcedure.updateState (p : DropTableProcedure) (state : procedure.State)
    (trace : List Effect) : DropTableProcedure × List Effect :=
  ({ p with state := state }, trace ++ [Effect.updateState state])

/-- `Start`, returning its error (nil on success), the procedure afterwards
and the effects so far. -/
def DropTableProcedure.Start (pb : clusterpb.Enums) (p : DropTableProcedure)
    (trace : List Effect) : Option GoError × DropTableProcedure × List Effect :=
  let (p, trace) := p.updateState State.StateRunning trace
  let req : dropTableCallbackRequest :=
    { cluster := p.cluster, dispatch := p.dispatch, rawReq := p.req,
      onSucceeded := p.onSucceeded, onFailed := p.onFailed,
      ret := { ID := 0, Name := "", SchemaID := 0, SchemaName := "" } }
  match p.fsm.Event pb eventDropTablePrepare req trace with
  | (some err, f, req, trace) =>
    let (err1, f, _, trace) := f.Event pb eventDropTableFailed req trace
    let (p, trace) := ({ p with fsm := f }).updateState State.StateFailed trace
    let err :=
      match err1 with
      | some err1 => GoError.WithMessagev err "send eventDropTableFailed, err:%v" err1
      | none => err
    (some (GoError.WithMessage err "send eventDropTablePrepare"), p, trace)
  | (none, f, req, trace) =>
    match f.Event pb eventDropTableSuccess req trace with
    | (some err, f, _, trace) =>
      (some (GoError.WithMessage err "send eventDropTableSuccess"), { p with fsm := f }, trace)
    | (none, f, _, trace) =>
      let (p, trace) := ({ p with fsm := f }).updateState State.StateFinished trace
      (none, p, trace)

def DropTableProcedure.Cancel (p : DropTableProcedure) (trace : List Effect) :
    Option GoError × DropTableProcedure × List Effect :=
  let (p, trace) := p.updateState State.StateCancelled trace
  (none, p, trace)

/-- The value `State()` returns after the effects of `trace`, when it
returned `init` before them: the argument of the last `updateState`. -/
def stateAfter (init : State) : List Effect → State
  | [] => init
  | Effect.updateState state :: rest => stateAfter state rest
  | _ :: rest => stateAfter init rest

/-- The dispatches of a trace, in order: the node addressed and the request. -/
def dispatches : List Effect → List (String × DropTableOnShardRequest)
  | [] => []
  | Effect.DropTableOnShard node req :: rest => (node, req) :: dispatches rest
  | _ :: rest => dispatches rest

/-- The lifecycle callbacks a trace invokes, in order, each with the value
`State()` returns at the moment of the call (`init` before the trace). -/
def lifecycleCalls (init : State) : List Effect → List (Effect × State)
  | [] => []
  | Effect.updateState state :: rest => lifecycleCalls state rest
  | Effect.onSucceeded ret :: rest => (Effect.onSucceeded ret, init) :: lifecycleCalls init rest
  | Effect.onFailed err :: rest => (Effect.onFailed err, init) :: lifecycleCalls init rest
  | _ :: rest => lifecycleCalls init rest

/-- The changes of `State()` along a trace, in order, as pairs (before,
after); an `updateState` that stores the value already there is no change. -/
def stateChanges (init : State) : List Effect → List (State × State)
  | [] => []
  | Effect.updateState state :: rest =>
    if init = state then stateChanges state rest else (init, state) :: stateChanges state rest
  | _ :: rest => stateChanges init rest

/-- The edges of the generic procedure state machine of the specification:
Init to Running, and Running to Finished, Failed or Cancelled. -/
def genericEdge : State → State → Bool
  | State.StateInit, State.StateRunning => true
  | State.StateRunning, State.StateFinished => true
  | State.StateRunning, State.StateFailed => true
  | State.StateRunning, State.StateCancelled => true
  | _, _ => false

/-- Finished, Failed and Cancelled. -/
def State.terminal : State → Bool
  | State.StateFinished => true
  | State.StateFailed => true
  | State.StateCancelled => true
  | _ => false

/-- The changes `Start` and `Cancel` can make: the edges of the generic
machine, and also any state to Cancelled and a terminal state back to
Running. -/
def unguardedEdge (a b : State) : Bool :=
  genericEdge a b || b == State.StateCancelled || (a.terminal && b == State.StateRunning)

/-- A call on a procedure. -/
inductive Call where
  | Start
  | Cancel
  deriving DecidableEq, Repr

/-- A sequence of `Start` and `Cancel` calls, one after the other, on the
same procedure. -/
def run (pb : clusterpb.Enums) :
    List Call → DropTableProcedure × List Effect → DropTableProcedure × List Effect
  | [], s => s
  | Call.Start :: calls, (p, trace) => run pb calls (p.Start pb trace).2
  | Call.Cancel :: calls, (p, trace) => run pb calls (p.Cancel trace).2

/-- The effect is a call on the cluster or the dispatcher, or a log line:
neither a lifecycle callback nor an `updateState`. -/
def Effect.inner : Effect → Bool
  | Effect.onSucceeded _ => false
  | Effect.onFailed _ => false
  | Effect.updateState _ => false
  | _ => true

/-- The effect is an `updateState`. -/
def Effect.isUpdateState : Effect → Bool
  | Effect.updateState _ => true
  | _ => false

/-- The event `fsm.Event` hands to the callback of `event` when the machine
leaves `src` for `dst`. -/
def FsmEvent.fresh (event src dst : String) : FsmEvent :=
  { Event := event, Src := src, Dst := dst, Err := none, canceled := false }

/-- The request `Start` builds for the callbacks. -/
def DropTableProcedure.request (p : DropTableProcedure) : dropTableCallbackRequest :=
  { cluster := p.cluster, dispatch := p.dispatch, rawReq := p.req,
    onSucceeded := p.onSucceeded, onFailed := p.onFailed,
    ret := { ID := 0, Name := "", SchemaID := 0, SchemaName := "" } }

/-- The result of the prepare callback in a `Start` on a procedure whose
machine is in its first state. -/
def DropTableProcedure.prepared (pb : clusterpb.Enums) (p : DropTableProcedure)
    (trace : List Effect) : FsmEvent × dropTableCallbackRequest × List Effect :=
  dropTablePrepareCallback pb
    (FsmEvent.fresh eventDropTablePrepare stateDropTableBegin stateDropTableWaiting)
    p.request (trace ++ [Effect.updateState State.StateRunning])

/-! ### Concrete collaborators, for the examples -/

/-- A table `t` of schema `s`, recorded on shard 7. -/
def exampleTable : Table :=
  { ShardID := 7, ID := 1, Name := "t", SchemaID := 2, SchemaName := "s",
    Info := { ID := 1, Name := "t", SchemaID := 2, SchemaName := "s" } }

/-- A cluster that has the table: it finds it, drops it (shard 7 goes from
version 3 to 4) and knows the leader of the shard, on node `node0`. -/
def clusterWithTable : Cluster :=
  { GetTable := fun _ _ _ => (exampleTable, true, none)
    DropTable := fun _ _ _ =>
      ({ ShardVersionUpdate := { ShardID := 7, CurrVersion := 4, PrevVersion := 3 } }, none)
    GetShardByID := fun _ _ => ({ GetLeader := some { Node := "node0" } }, none) }

/-- A cluster that does not have the table. -/
def clusterWithoutTable : Cluster :=
  { clusterWithTable with
    GetTable := fun _ _ _ =>
      ({ ShardID := 0, ID := 0, Name := "", SchemaID := 0, SchemaName := "",
         Info := { ID := 0, Name := "", SchemaID := 0, SchemaName := "" } }, false, none) }

/-- A dispatcher that always succeeds. -/
def dispatchOk : Dispatch :=
  { DropTableOnShard := fun _ _ _ => none }

/-- A dispatcher whose first call fails with a network error and whose later
calls succeed. -/
def dispatchFailsOnce : Dispatch :=
  { DropTableOnShard := fun history _ _ =>
      if dispatches history = [] then some (GoError.collaborator "NetworkError") else none }

/-- The request to drop table `t` of schema `s`. -/
def exampleRequest : DropTableRequest :=
  { SchemaName := "s", Name := "t" }

/-- The dispatch request for `exampleTable` on `clusterWithTable`. -/
def exampleDispatchRequest (pb : clusterpb.Enums) : DropTableOnShardRequest :=
  { UpdateShardInfo :=
      { CurrShardInfo := { ID := 7, Role := pb.ShardRole_LEADER, Version := 4 }
        PrevVersion := 3 }
    TableInfo := { ID := 1, Name := "t", SchemaID := 2, SchemaName := "s" } }

/-- A fresh procedure for `exampleRequest` whose lifecycle callbacks return
nil. -/
def exampleProcedure (dispatch : Dispatch) (cluster : Cluster) : DropTableProcedure :=
  NewDropTableProcedure dispatch cluster 1 exampleRequest (fun _ _ => none) (fun _ _ => none)

/-- The effect is a call on the cluster. -/
def Effect.isClusterCall : Effect → Bool
  | Effect.GetTable _ _ => true
  | Effect.DropTable _ _ => true
  | Effect.GetShardByID _ => true
  | _ => false

/-- A cluster that has the table and drops it, on a shard without leader. -/
def clusterWithoutLeader : Cluster :=
  { clusterWithTable with GetShardByID := fun _ _ => ({ GetLeader := none }, none) }

/-- A cluster that has the table, on shard 7, and reports the update of
another shard when it drops it: shard 8, from version 3 to 4.  The leader of
shard 7 is on node `node0`, that of every other shard on node `node8`. -/
def clusterOtherShard : Cluster :=
  { GetTable := fun _ _ _ => (exampleTable, true, none)
    DropTable := fun _ _ _ =>
      ({ ShardVersionUpdate := { ShardID := 8, CurrVersion := 4, PrevVersion := 3 } }, none)
    GetShardByID := fun _ shardID =>
      if shardID = 7 then ({ GetLeader := some { Node := "node0" } }, none)
      else ({ GetLeader := some { Node := "node8" } }, none) }

/-- The effect is a call of `onSucceeded`. -/
def Effect.isOnSucceeded : Effect → Bool
  | Effect.onSucceeded _ => true
  | _ => false

/-- The effect is a call of `onFailed`. -/
def Effect.isOnFailed : Effect → Bool
  | Effect.onFailed _ => true
  | _ => false

/-- The errors handed to `onFailed` along a trace, in order (`none` is a nil
error). -/
def onFailedArgs : List Effect → List (Option GoError)
  | [] => []
  | Effect.onFailed err :: rest => err :: onFailedArgs rest
  | _ :: rest => onFailedArgs rest

/-- A cluster whose `GetTable` fails. -/
def clusterGetTableFails : Cluster :=
  { clusterWithTable with
    GetTable := fun _ _ _ => (exampleTable, false, some (GoError.collaborator "get table")) }

/-- A cluster that finds the table and whose `DropTable` fails. -/
def clusterDropTableFails : Cluster :=
  { clusterWithTable with
    DropTable := fun _ _ _ =>
      ({ ShardVersionUpdate := { ShardID := 0, CurrVersion := 0, PrevVersion := 0 } },
        some (GoError.collaborator "drop table")) }

/-- A cluster that finds and drops the table and whose `GetShardByID`
fails. -/
def clusterGetShardFails : Cluster :=
  { clusterWithTable with
    GetShardByID := fun _ _ => ({ GetLeader := none }, some (GoError.collaborator "get shard")) }

end procedure

/-! ## Package `nodepicker` (`server/coordinator/scheduler/nodepicker`)

Only the test of the node picker is among the source files; the picker itself
is modelled from section 4.D of the specification. -/

namespace nodepicker

/-- Record `metadata.RegisteredNode`: a node and the shards it reported. -/
structure RegisteredNode where
  Node : storage.Node
  ShardInfos : List procedure.ShardInfo
  deriving DecidableEq, Repr

/-- Record `nodepicker.Config`. -/
structure Config where
  NumTotalShards : Nat
  deriving DecidableEq, Repr

/-- Modelled from the spec: what section 4.D leaves to the implementation of
the node picker, whose source is not among these files (only its test is).
The lease threshold in milliseconds (section 6, `node_lease_threshold`), the
number of virtual points per node (`may choose 40-200`), the position of the
`i`-th virtual point of a node on the ring, given by the name of the node, and
the position `h(s)` of a shard. -/
structure Hashing where
  leaseThreshold : Int
  points : Nat
  points_range : 40 ≤ points ∧ points ≤ 200
  hashNode : String → Nat → Nat
  hashShard : Nat → Nat

/-- Modelled from the spec: a node is expired when
`now - last_touch_time > lease_threshold` (section 4.D). -/
def expired (h : Hashing) (now : Int) (node : RegisteredNode) : Bool :=
  decide (now - (node.Node.LastTouchTime : Int) > h.leaseThreshold)

/-- Modelled from the spec: the candidate nodes that are left after the
expired ones are filtered out. -/
def liveNodes (h : Hashing) (now : Int) (nodes : List RegisteredNode) : List RegisteredNode :=
  nodes.filter (fun node => !expired h now node)

/-- The order of two names, character by character. -/
def leChars : List Char → List Char → Bool
  | [], _ => true
  | _ :: _, [] => false
  | a :: as, b :: bs => decide (a.toNat < b.toNat) || (a.toNat == b.toNat && leChars as bs)

/-- Modelled from the spec: the clockwise order of the points of the ring, by
position, and by node name where two points share a position (section 4.D
leaves the tie open and demands a result that does not depend on the order of
the input). -/
def leRing (a b : Nat × String) : Bool :=
  decide (a.1 < b.1) || (a.1 == b.1 && leChars a.2.data b.2.data)

/-- Modelled from the spec: the virtual points of one node, each with the
name of the node. -/
def virtualPoints (h : Hashing) (name : String) : List (Nat × String) :=
  (List.range h.points).map (fun i => (h.hashNode name i, name))

/-- Modelled from the spec: the consistent-hash ring of the live nodes
(section 4.D, step 1), as the list of all their virtual points in clockwise
order. -/
def ring (h : Hashing) (live : List RegisteredNode) : List (Nat × String) :=
  List.insertionSort (fun a b => leRing a b = true)
    (live.flatMap (fun node => virtualPoints h node.Node.Name))

/-- Modelled from the spec: the ring read clockwise from position `p`: the
points at or after `p`, then, wrapping around, the points before it. -/
def clockwise (ring : List (Nat × String)) (p : Nat) : List (Nat × String) :=
  ring.filter (fun e => decide (p ≤ e.1)) ++ ring.filter (fun e => decide (e.1 < p))

/-- Modelled from the spec: the accepted count of a node (section 4.D, step
3), the number of shards it has been given so far. -/
def accepted (acc : List (Nat × String)) (name : String) : Nat :=
  acc.countP (fun e => e.2 = name)

/-- Modelled from the spec: the cap of section 4.D, step 3, the ceiling of
`shards / nodes`. -/
def ceilDiv (shards nodes : Nat) : Nat :=
  (shards + nodes - 1) / nodes

/-- Modelled from the spec: steps 2 and 3 of section 4.D.  Each shard goes to
the first node clockwise from `h(s)` that has accepted fewer than `cap`
shards; `none` when every node of the ring is at its cap. -/
def assignShards (h : Hashing) (ring : List (Nat × String)) (cap : Nat) :
    List Nat → List (Nat × String) → Option (List (Nat × String))
  | [], acc => some acc
  | s :: rest, acc =>
    match (clockwise ring (h.hashShard s)).find? (fun e => decide (accepted acc e.2 < cap)) with
    | none => none
    | some e => assignShards h ring cap rest (acc ++ [(s, e.2)])

/-- Modelled from the spec: step 4, each chosen name is replaced by the
descriptor of the live node of that name. -/
def attachNodes (live : List RegisteredNode) :
    List (Nat × String) → Option (List (Nat × RegisteredNode))
  | [] => some []
  | (s, name) :: rest =>
    match live.find? (fun node => decide (node.Node.Name = name)), attachNodes live rest with
    | some node, some entries => some ((s, node) :: entries)
    | _, _ => none

/-- Modelled from the spec: the result of section 4.D, step 4, is a mapping
from shard id to node, so each choice is written under its shard id: of a
shard id listed more than once the choice made last stays.  The entries are
kept in the order in which they were last written. -/
def lastWrites {α : Type} : List (Nat × α) → List (Nat × α)
  | [] => []
  | e :: rest =>
    if e.1 ∈ rest.map Prod.fst then lastWrites rest else e :: lastWrites rest

/-- Modelled from the spec: `PickNode` of the consistent uniform hash node
picker (section 4.D), whose source is not among these files.  The expired
nodes are filtered out and the pick fails with `NoAvailableNodes` if fewer
than one node remains; the shard ids are taken one after the other as they
are listed; the cap of a node is the ceiling of the number of shard ids
listed over the number of live nodes.  The result is the mapping from shard
id to node, as the list of its entries, or the error. -/
def PickNode (h : Hashing) (now : Int) (_config : Config) (shardIDs : List Nat)
    (nodes : List RegisteredNode) : Except GoError (List (Nat × RegisteredNode)) :=
  let live := liveNodes h now nodes
  if live.length < 1 then Except.error GoError.NoAvailableNodes
  else
    match assignShards h (ring h live) (ceilDiv shardIDs.length live.length) shardIDs [] with
    | none => Except.error GoError.NoAvailableNodes
    | some names =>
      match attachNodes live (lastWrites names) with
      | none => Except.error GoError.NoAvailableNodes
      | some entries => Except.ok entries

/-- The number of shards a mapping gives to the node of a name. -/
def load (mapping : List (Nat × RegisteredNode)) (name : String) : Nat :=
  mapping.countP (fun e => e.2.Node.Name = name)

/-- The shard-to-node-name view of a result (what the test compares). -/
def shardNames (mapping : List (Nat × RegisteredNode)) : List (Nat × String) :=
  mapping.map (fun e => (e.1, e.2.Node.Name))

/-- A choice of what the implementation is free to choose: a lease threshold
of 15 seconds, 40 virtual points per node, and two simple hash functions. -/
def exampleHashing : Hashing :=
  { leaseThreshold := 15000
    points := 40
    points_range := by decide
    hashNode := fun name i => (name.length * 131 + (name.data.map Char.toNat).sum * 31 + i * 17) % 256
    hashShard := fun s => (s * 37) % 256 }

/-- The time of the example calls, in milliseconds. -/
def exampleNow : Int := 1700000000000

/-- A node as the test registers it: a name and a last touch time. -/
def exampleNode (name : String) (lastTouchTime : Nat) : RegisteredNode :=
  { Node := { Name := name, NodeStats := { Lease := 0, Zone := "", NodeVersion := "" },
              CreatedAt := 0, LastTouchTime := lastTouchTime, State := 0 }
    ShardInfos := [] }

/-- Nodes `0`, `1`, `2`, all touched now. -/
def exampleLiveNodes : List RegisteredNode :=
  [exampleNode "0" 1700000000000, exampleNode "1" 1700000000000, exampleNode "2" 1700000000000]

/-- Nodes `0`, `1`, `2`, all last touched `time.Minute` (as a number of
milliseconds, the way the test subtracts it) before now. -/
def exampleExpiredNodes : List RegisteredNode :=
  [exampleNode "0" 1640000000000, exampleNode "1" 1640000000000, exampleNode "2" 1640000000000]

/-- Nodes `0`, `1`, `2` of which only `1` was touched now. -/
def exampleOneLiveNodes : List RegisteredNode :=
  [exampleNode "0" 1640000000000, exampleNode "1" 1700000000000, exampleNode "2" 1640000000000]

/-- The mapping the example hashing gives for shards 0 to 6 on the three live
nodes. -/
def exampleMapping : List (Nat × RegisteredNode) :=
  [(0, exampleNode "2" 1700000000000), (1, exampleNode "2" 1700000000000),
    (2, exampleNode "2" 1700000000000), (3, exampleNode "1" 1700000000000),
    (4, exampleNode "1" 1700000000000), (5, exampleNode "0" 1700000000000),
    (6, exampleNode "1" 1700000000000)]

/-- The pick before the descriptors are attached: the mapping from shard id
to node name, for the live nodes `live`. -/
def pickNames (h : Hashing) (live : List RegisteredNode) (shardIDs : List Nat) :
    Except GoError (List (Nat × String)) :=
  if live.length < 1 then Except.error GoError.NoAvailableNodes
  else
    match assignShards h (ring h live) (ceilDiv shardIDs.length live.length) shardIDs [] with
    | none => Except.error GoError.NoAvailableNodes
    | some names => Except.ok (lastWrites names)

end nodepicker

/-! ## Storage records: decoding an encoding -/

namespace storage

theorem ConvertShardRolePB_convertShardRoleToPB (pb : clusterpb.Enums) (role : ShardRole) :
    ConvertShardRolePB pb (convertShardRoleToPB pb role) =
      if role = ShardRoleLeader then ShardRoleLeader else ShardRoleFollower := by
  have h := pb.shardRole_ne
  unfold ConvertShardRolePB convertShardRoleToPB
  by_cases h1 : role = ShardRoleLeader
  · simp [h1]
  · by_cases h2 : role = ShardRoleFollower <;> simp [h1, h2, h.symm]

theorem convertClusterStatePB_convertClusterStateToPB (pb : clusterpb.Enums)
    (state : ClusterState) :
    convertClusterStatePB pb (convertClusterStateToPB pb state) =
      if state = ClusterStateStable then ClusterStateStable else ClusterStateEmpty := by
  have h := pb.clusterState_ne
  have hse : ¬ ClusterStateStable = ClusterStateEmpty := by decide
  have hes : ¬ ClusterStateEmpty = ClusterStateStable := by decide
  unfold convertClusterStatePB convertClusterStateToPB
  by_cases h1 : state = ClusterStateEmpty
  · simp [h1, hes]
  · by_cases h2 : state = ClusterStateStable
    · simp [h2, hse, h.symm]
    · simp [h1, h2]

theorem convertNodeStatePB_convertNodeStateToPB (pb : clusterpb.Enums) (state : NodeState) :
    convertNodeStatePB pb (convertNodeStateToPB pb state) =
      if state = NodeStateOnline then NodeStateOnline else NodeStateOffline := by
  have h := pb.nodeState_ne
  unfold convertNodeStatePB convertNodeStateToPB
  by_cases h1 : state = NodeStateOnline
  · simp [h1]
  · by_cases h2 : state = NodeStateOffline <;> simp [h1, h2, h.symm]

theorem shardRole_declared_iff (role : ShardRole) :
    (if role = ShardRoleLeader then ShardRoleLeader else ShardRoleFollower) = role ↔
      ShardRole.declared role := by
  unfold ShardRole.declared
  by_cases h1 : role = ShardRoleLeader
  · simp [h1]
  · simp only [h1, if_false, false_or]
    exact eq_comm

theorem clusterState_declared_iff (state : ClusterState) :
    (if state = ClusterStateStable then ClusterStateStable else ClusterStateEmpty) = state ↔
      ClusterState.declared state := by
  unfold ClusterState.declared
  by_cases h1 : state = ClusterStateStable
  · simp [h1]
  · simp only [h1, if_false, or_false]
    exact eq_comm

theorem nodeState_declared_iff (state : NodeState) :
    (if state = NodeStateOnline then NodeStateOnline else NodeStateOffline) = state ↔
      NodeState.declared state := by
  unfold NodeState.declared
  by_cases h1 : state = NodeStateOnline
  · simp [h1]
  · simp only [h1, if_false, false_or]
    exact eq_comm

theorem convertShardNodesPB_convertShardNodesToPB (pb : clusterpb.Enums)
    (shardNodes : List ShardNode) :
    convertShardNodesPB pb (convertShardNodesToPB pb shardNodes) =
      some (shardNodes.map ShardNode.decoded) := by
  induction shardNodes with
  | nil => rfl
  | cons shardNode rest ih =>
    simp [convertShardNodesPB, convertShardNodesToPB, ih, convertShardNodePB,
      convertShardNodeToPB, ConvertShardRolePB_convertShardRoleToPB, ShardNode.decoded]

theorem map_decoded_eq_iff (shardNodes : List ShardNode) :
    shardNodes.map ShardNode.decoded = shardNodes ↔
      ∀ shardNode ∈ shardNodes, ShardRole.declared shardNode.ShardRole := by
  induction shardNodes with
  | nil => simp
  | cons shardNode rest ih =>
    simp only [List.map_cons, List.cons.injEq, ih, List.mem_cons, forall_eq_or_imp]
    apply and_congr_left
    intro _
    rw [← shardRole_declared_iff]
    cases shardNode with
    | mk ID ShardRole NodeName => simp [ShardNode.decoded]

/-- C1 (amended): decoding the encoding of a cluster view always keeps the
cluster id, the version, the creation time and the shard nodes in their
order with their ids and node names; a state other than `ClusterStateStable`
comes back as `ClusterStateEmpty` and a role other than `ShardRoleLeader` as
`ShardRoleFollower`.  So the view comes back exactly when its state and the
role of each of its shard nodes are declared constants. -/
theorem convertClusterViewPB_convertClusterViewToPB_iff (pb : clusterpb.Enums)
    (view : ClusterView) :
    convertClusterViewPB pb (some (convertClusterViewToPB pb view)) =
      some { ClusterID := view.ClusterID
             Version := view.Version
             State := if view.State = ClusterStateStable then ClusterStateStable
                      else ClusterStateEmpty
             ShardNodes := view.ShardNodes.map (fun shardNode =>
               { ID := shardNode.ID
                 ShardRole := if shardNode.ShardRole = ShardRoleLeader then ShardRoleLeader
                              else ShardRoleFollower
                 NodeName := shardNode.NodeName })
             CreatedAt := view.CreatedAt } ∧
    (convertClusterViewPB pb (some (convertClusterViewToPB pb view)) = some view ↔
      ClusterView.declared view) := by
  cases view with
  | mk ClusterID Version State ShardNodes CreatedAt =>
    refine ⟨?_, ?_⟩
    · simp only [convertClusterViewPB, convertClusterViewToPB,
        convertShardNodesPB_convertShardNodesToPB, convertClusterStatePB_convertClusterStateToPB]
      rfl
    · simp only [convertClusterViewPB, convertClusterViewToPB,
        convertShardNodesPB_convertShardNodesToPB, convertClusterStatePB_convertClusterStateToPB,
        Option.some.injEq, ClusterView.mk.injEq, true_and, and_true, ClusterView.declared,
        clusterState_declared_iff, map_decoded_eq_iff]

/-- C1 (counterexample): a cluster view holding the zero value of
`ClusterState` does not come back: its state decodes as `ClusterStateEmpty`. -/
theorem convertClusterViewPB_zero_state :
    convertClusterViewPB clusterpb.Enums.declared
        (some (convertClusterViewToPB clusterpb.Enums.declared
          { ClusterID := 1, Version := 1, State := 0, ShardNodes := [], CreatedAt := 0 })) =
      some { ClusterID := 1, Version := 1, State := ClusterStateEmpty, ShardNodes := [],
             CreatedAt := 0 } ∧
    convertClusterViewPB clusterpb.Enums.declared
        (some (convertClusterViewToPB clusterpb.Enums.declared
          { ClusterID := 1, Version := 1, State := 0, ShardNodes := [], CreatedAt := 0 })) ≠
      some { ClusterID := 1, Version := 1, State := 0, ShardNodes := [], CreatedAt := 0 } := by
  decide

/-- C2 (amended): decoding the encoding of a node always keeps the name, the
node stats (lease, zone, node version) and the two times; a state other than
`NodeStateOnline` comes back as `NodeStateOffline`.  So the node comes back
exactly when its state is a declared constant. -/
theorem convertNodePB_convertNodeToPB_iff (pb : clusterpb.Enums) (node : Node) :
    convertNodePB pb (some (convertNodeToPB pb node)) =
      some { Name := node.Name
             NodeStats := { Lease := node.NodeStats.Lease
                            Zone := node.NodeStats.Zone
                            NodeVersion := node.NodeStats.NodeVersion }
             CreatedAt := node.CreatedAt
             LastTouchTime := node.LastTouchTime
             State := if node.State = NodeStateOnline then NodeStateOnline
                      else NodeStateOffline } ∧
    (convertNodePB pb (some (convertNodeToPB pb node)) = some node ↔
      NodeState.declared node.State) := by
  cases node with
  | mk Name NodeStats CreatedAt LastTouchTime State =>
    refine ⟨?_, ?_⟩
    · simp only [convertNodePB, convertNodeToPB, convertNodeStatsPB, convertNodeStatsToPB,
        convertNodeStatePB_convertNodeStateToPB]
    · simp only [convertNodePB, convertNodeToPB, convertNodeStatsPB, convertNodeStatsToPB,
        convertNodeStatePB_convertNodeStateToPB, Option.some.injEq, Node.mk.injEq, true_and,
        nodeState_declared_iff]

/-- C2 (counterexample): a node holding the zero value of `NodeState` does
not come back: its state decodes as `NodeStateOffline`. -/
theorem convertNodePB_zero_state :
    convertNodePB clusterpb.Enums.declared
        (some (convertNodeToPB clusterpb.Enums.declared
          { Name := "n", NodeStats := { Lease := 1, Zone := "z", NodeVersion := "v" },
            CreatedAt := 0, LastTouchTime := 0, State := 0 })) =
      some { Name := "n", NodeStats := { Lease := 1, Zone := "z", NodeVersion := "v" },
             CreatedAt := 0, LastTouchTime := 0, State := NodeStateOffline } ∧
    convertNodePB clusterpb.Enums.declared
        (some (convertNodeToPB clusterpb.Enums.declared
          { Name := "n", NodeStats := { Lease := 1, Zone := "z", NodeVersion := "v" },
            CreatedAt := 0, LastTouchTime := 0, State := 0 })) ≠
      some { Name := "n", NodeStats := { Lease := 1, Zone := "z", NodeVersion := "v" },
             CreatedAt := 0, LastTouchTime := 0, State := 0 } := by
  decide

/-- C11: the encoded table carries the schema id in its shard field: `ShardId`
is `uint32(t.SchemaID)`, the same value as `SchemaId`, and `Desc` is
empty. -/
theorem convertTableToPB_ShardId (table : Table) :
    (convertTableToPB table).ShardId = table.SchemaID ∧
    (convertTableToPB table).ShardId = (convertTableToPB table).SchemaId ∧
    (convertTableToPB table).Desc = "" :=
  ⟨rfl, rfl, rfl⟩

/-- C12: decoding the encoding of a table gives the table back; the decoder
does not read the `ShardId` and `Desc` fields the encoder writes. -/
theorem convertTablePB_convertTableToPB (table : Table) :
    convertTablePB (some (convertTableToPB table)) = some table ∧
    ∀ (shardId : Nat) (desc : String),
      convertTablePB (some { convertTableToPB table with ShardId := shardId, Desc := desc }) =
        some table :=
  ⟨rfl, fun _ _ => rfl⟩

theorem convertTableIDsPB_convertTableIDsToPB (tableIDs : List TableID) :
    convertTableIDsPB (convertTableIDsToPB tableIDs) = tableIDs := by
  induction tableIDs with
  | nil => rfl
  | cons id rest ih => simp [convertTableIDsPB, convertTableIDsToPB, ih]

theorem convertTableIDsToPB_eq (tableIDs : List TableID) :
    convertTableIDsToPB tableIDs = tableIDs := by
  induction tableIDs with
  | nil => rfl
  | cons id rest ih => simp [convertTableIDsToPB, ih]

/-- C13: decoding the encoding of a shard view gives the shard view back:
same shard id, version and creation time, and the same sequence of table
ids; the encoded sequence is already the sequence of the view. -/
theorem convertShardViewPB_convertShardViewToPB (view : ShardView) :
    convertShardViewPB (some (convertShardViewToPB view)) = some view ∧
    (convertShardViewToPB view).TableIds = view.TableIDs := by
  cases view with
  | mk ShardID Version TableIDs CreatedAt =>
    exact ⟨by simp [convertShardViewPB, convertShardViewToPB,
      convertTableIDsPB_convertTableIDsToPB], convertTableIDsToPB_eq TableIDs⟩

/-- C14: decoding the encoding of a cluster gives the cluster back, and
decoding the encoding of a schema gives the schema back. -/
theorem convertClusterPB_convertClusterToPB (cluster : Cluster) (schema : Schema) :
    convertClusterPB (some (convertClusterToPB cluster)) = some cluster ∧
    convertSchemaPB (some (convertSchemaToPB schema)) = some schema :=
  ⟨rfl, rfl⟩

/-- C23: no enum conversion promotes an unrecognised value to the privileged
one.  In each direction the result is the privileged constant (LEADER,
ONLINE, STABLE; `ShardRoleLeader`, `NodeStateOnline`, `ClusterStateStable`)
exactly when the input is its counterpart, and every other input, the zero
value 0 of the native types included, gives Follower, Offline or Empty. -/
theorem enum_conversions_privileged (pb : clusterpb.Enums) (x : Int) :
    ((convertShardRoleToPB pb x = pb.ShardRole_LEADER ↔ x = ShardRoleLeader) ∧
      (ConvertShardRolePB pb x = ShardRoleLeader ↔ x = pb.ShardRole_LEADER) ∧
      (convertNodeStateToPB pb x = pb.NodeState_ONLINE ↔ x = NodeStateOnline) ∧
      (convertNodeStatePB pb x = NodeStateOnline ↔ x = pb.NodeState_ONLINE) ∧
      (convertClusterStateToPB pb x = pb.ClusterTopology_STABLE ↔ x = ClusterStateStable) ∧
      (convertClusterStatePB pb x = ClusterStateStable ↔ x = pb.ClusterTopology_STABLE)) ∧
    (convertShardRoleToPB pb x =
        (if x = ShardRoleLeader then pb.ShardRole_LEADER else pb.ShardRole_FOLLOWER) ∧
      ConvertShardRolePB pb x =
        (if x = pb.ShardRole_LEADER then ShardRoleLeader else ShardRoleFollower) ∧
      convertNodeStateToPB pb x =
        (if x = NodeStateOnline then pb.NodeState_ONLINE else pb.NodeState_OFFLINE) ∧
      convertNodeStatePB pb x =
        (if x = pb.NodeState_ONLINE then NodeStateOnline else NodeStateOffline) ∧
      convertClusterStateToPB pb x =
        (if x = ClusterStateStable then pb.ClusterTopology_STABLE
         else pb.ClusterTopology_EMPTY) ∧
      convertClusterStatePB pb x =
        (if x = pb.ClusterTopology_STABLE then ClusterStateStable else ClusterStateEmpty)) ∧
    (convertShardRoleToPB pb 0 = pb.ShardRole_FOLLOWER ∧
      convertNodeStateToPB pb 0 = pb.NodeState_OFFLINE ∧
      convertClusterStateToPB pb 0 = pb.ClusterTopology_EMPTY) := by
  have hrole := pb.shardRole_ne
  have hnode := pb.nodeState_ne
  have hcluster := pb.clusterState_ne
  have hLF : ¬ ShardRoleFollower = ShardRoleLeader := by decide
  have hOO : ¬ NodeStateOffline = NodeStateOnline := by decide
  have hES : ¬ ClusterStateEmpty = ClusterStateStable := by decide
  have hSE : ¬ ClusterStateStable = ClusterStateEmpty := by decide
  have e1 : convertShardRoleToPB pb x =
      (if x = ShardRoleLeader then pb.ShardRole_LEADER else pb.ShardRole_FOLLOWER) := by
    unfold convertShardRoleToPB
    by_cases h1 : x = ShardRoleLeader <;> simp [h1]
  have e2 : ConvertShardRolePB pb x =
      (if x = pb.ShardRole_LEADER then ShardRoleLeader else ShardRoleFollower) := by
    unfold ConvertShardRolePB
    by_cases h1 : x = pb.ShardRole_LEADER <;> simp [h1]
  have e3 : convertNodeStateToPB pb x =
      (if x = NodeStateOnline then pb.NodeState_ONLINE else pb.NodeState_OFFLINE) := by
    unfold convertNodeStateToPB
    by_cases h1 : x = NodeStateOnline <;> simp [h1]
  have e4 : convertNodeStatePB pb x =
      (if x = pb.NodeState_ONLINE then NodeStateOnline else NodeStateOffline) := by
    unfold convertNodeStatePB
    by_cases h1 : x = pb.NodeState_ONLINE <;> simp [h1]
  have e5 : convertClusterStateToPB pb x =
      (if x = ClusterStateStable then pb.ClusterTopology_STABLE
       else pb.ClusterTopology_EMPTY) := by
    unfold convertClusterStateToPB
    by_cases h1 : x = ClusterStateEmpty
    · simp [h1, hES]
    · by_cases h2 : x = ClusterStateStable
      · simp [h2, hSE]
      · simp [h1, h2]
  have e6 : convertClusterStatePB pb x =
      (if x = pb.ClusterTopology_STABLE then ClusterStateStable else ClusterStateEmpty) := by
    unfold convertClusterStatePB
    by_cases h1 : x = pb.ClusterTopology_EMPTY
    · simp [h1, hcluster]
    · by_cases h2 : x = pb.ClusterTopology_STABLE
      · simp [h2, hcluster.symm]
      · simp [h1, h2]
  refine ⟨⟨?_, ?_, ?_, ?_, ?_, ?_⟩, ⟨e1, e2, e3, e4, e5, e6⟩, ?_, ?_, ?_⟩
  · rw [e1]
    by_cases h1 : x = ShardRoleLeader <;> simp [h1, hrole.symm]
  · rw [e2]
    by_cases h1 : x = pb.ShardRole_LEADER <;> simp [h1, hLF]
  · rw [e3]
    by_cases h1 : x = NodeStateOnline <;> simp [h1, hnode.symm]
  · rw [e4]
    by_cases h1 : x = pb.NodeState_ONLINE <;> simp [h1, hOO]
  · rw [e5]
    by_cases h1 : x = ClusterStateStable <;> simp [h1, hcluster]
  · rw [e6]
    by_cases h1 : x = pb.ClusterTopology_STABLE <;> simp [h1, hES]
  · unfold convertShardRoleToPB
    simp [ShardRoleLeader, ShardRoleFollower]
  · unfold convertNodeStateToPB
    simp [NodeStateOnline, NodeStateOffline]
  · unfold convertClusterStateToPB
    simp [ClusterStateEmpty, ClusterStateStable]

end storage

/-! ## The forwarding address -/

namespace http

theorem stringsSplit_ne_nil (sep : Char) (s : List Char) : stringsSplit sep s ≠ [] := by
  induction s with
  | nil => simp [stringsSplit]
  | cons c cs ih =>
    unfold stringsSplit
    split
    · simp
    · split
      · simp
      · simp

theorem stringsSplit_cons_sep (sep : Char) (cs : List Char) :
    stringsSplit sep (sep :: cs) = [] :: stringsSplit sep cs := by
  simp [stringsSplit]

theorem stringsSplit_cons_ne (sep c : Char) (cs : List Char) (h : c ≠ sep) :
    ∃ piece pieces, stringsSplit sep cs = piece :: pieces ∧
      stringsSplit sep (c :: cs) = (c :: piece) :: pieces := by
  cases hs : stringsSplit sep cs with
  | nil => exact absurd hs (stringsSplit_ne_nil sep cs)
  | cons piece pieces =>
    refine ⟨piece, pieces, rfl, ?_⟩
    simp [stringsSplit, h, hs]

theorem length_stringsSplit (sep : Char) (s : List Char) :
    (stringsSplit sep s).length = s.count sep + 1 := by
  induction s with
  | nil => simp [stringsSplit]
  | cons c cs ih =>
    by_cases h : c = sep
    · subst h
      simp [stringsSplit_cons_sep, ih]
    · obtain ⟨piece, pieces, h1, h2⟩ := stringsSplit_cons_ne sep c cs h
      rw [h2, List.count_cons_of_ne (Ne.symm h), ← ih, h1]
      simp

theorem stringsSplit_of_not_mem (sep : Char) (s : List Char) (h : sep ∉ s) :
    stringsSplit sep s = [s] := by
  induction s with
  | nil => simp [stringsSplit]
  | cons c cs ih =>
    have hc : c ≠ sep := fun e => h (by simp [e])
    have hcs : sep ∉ cs := fun e => h (by simp [e])
    simp [stringsSplit, hc, ih hcs]

theorem stringsSplit_append_sep (sep : Char) (s t : List Char) (h : sep ∉ s) :
    stringsSplit sep (s ++ sep :: t) = s :: stringsSplit sep t := by
  induction s with
  | nil => simp [stringsSplit]
  | cons c cs ih =>
    have hc : c ≠ sep := fun e => h (by simp [e])
    have hcs : sep ∉ cs := fun e => h (by simp [e])
    simp [stringsSplit, hc, ih hcs]

/-- A string splits into its first piece, free of the separator, and the
split of what follows the first separator. -/
theorem stringsSplit_cons_iff (sep : Char) (s piece : List Char) (pieces : List (List Char))
    (h : stringsSplit sep s = piece :: pieces) :
    sep ∉ piece ∧ ((pieces = [] ∧ s = piece) ∨
      ∃ t, s = piece ++ sep :: t ∧ stringsSplit sep t = pieces) := by
  induction s generalizing piece pieces with
  | nil =>
    simp [stringsSplit] at h
    obtain ⟨h1, h2⟩ := h
    subst h1 h2
    simp
  | cons c cs ih =>
    by_cases hc : c = sep
    · subst hc
      rw [stringsSplit_cons_sep] at h
      simp only [List.cons.injEq] at h
      obtain ⟨h1, h2⟩ := h
      subst h1
      refine ⟨by simp, Or.inr ⟨cs, by simp, h2⟩⟩
    · obtain ⟨p, ps, h1, h2⟩ := stringsSplit_cons_ne sep c cs hc
      rw [h2] at h
      simp only [List.cons.injEq] at h
      obtain ⟨h3, h4⟩ := h
      subst h3 h4
      obtain ⟨ih1, ih2⟩ := ih p ps h1
      refine ⟨?_, ?_⟩
      · simp only [List.mem_cons, not_or]
        exact ⟨Ne.symm hc, ih1⟩
      · rcases ih2 with ⟨e1, e2⟩ | ⟨t, e1, e2⟩
        · left; simp [e1, e2]
        · right; exact ⟨t, by simp [e1], e2⟩

/-- A string with exactly three pieces is the three pieces with a separator
between them, and no piece contains the separator. -/
theorem stringsSplit_three (sep : Char) (s a b c : List Char)
    (h : stringsSplit sep s = [a, b, c]) :
    s = a ++ sep :: (b ++ sep :: c) ∧ sep ∉ a ∧ sep ∉ b ∧ sep ∉ c := by
  obtain ⟨ha, h1⟩ := stringsSplit_cons_iff sep s a [b, c] h
  rcases h1 with ⟨e, _⟩ | ⟨t, e1, e2⟩
  · simp at e
  obtain ⟨hb, h2⟩ := stringsSplit_cons_iff sep t b [c] e2
  rcases h2 with ⟨e, _⟩ | ⟨u, e3, e4⟩
  · simp at e
  obtain ⟨hc, h3⟩ := stringsSplit_cons_iff sep u c [] e4
  rcases h3 with ⟨_, e⟩ | ⟨v, _, e6⟩
  · subst e e3 e1
    exact ⟨rfl, ha, hb, hc⟩
  · exact absurd e6 (stringsSplit_ne_nil sep v)

theorem throughLastColon_append (s t : List Char) (h : ':' ∉ t) :
    throughLastColon (s ++ ':' :: t) = s ++ [':'] := by
  unfold throughLastColon
  have h1 : (s ++ ':' :: t).reverse = t.reverse ++ ':' :: s.reverse := by simp
  rw [h1, List.dropWhile_append_of_pos]
  · simp [List.dropWhile]
  · intro c hc
    have : c ≠ ':' := fun e => h (by rw [← e]; exact List.mem_reverse.mp hc)
    simp [this]

/-- With exactly three pieces the result is the first two pieces, unchanged,
and the rendering of the port, joined by `:`. -/
theorem formatHTTPAddr_of_three (grpcAddr a b c : List Char) (httpPort : Int)
    (h : stringsSplit ':' grpcAddr = [a, b, c]) :
    formatHTTPAddr grpcAddr httpPort = (a ++ ':' :: (b ++ ':' :: strconvItoa httpPort), none) := by
  simp [formatHTTPAddr, h, stringsJoin]

theorem formatHTTPAddr_of_length_ne (grpcAddr : List Char) (httpPort : Int)
    (h : (stringsSplit ':' grpcAddr).length ≠ 3) :
    formatHTTPAddr grpcAddr httpPort =
      ([], some (GoError.WithMessage GoError.ErrParseLeaderAddr
        ("gprc addr:" ++ String.mk grpcAddr))) := by
  simp [formatHTTPAddr, h]

theorem exists_three_of_length (l : List (List Char)) (h : l.length = 3) :
    ∃ a b c, l = [a, b, c] := by
  match l, h with
  | [a, b, c], _ => exact ⟨a, b, c, rfl⟩

/-- C3 (the code at the documented example): for the address
`http://127.0.0.1:8831` and port 5000 the code returns
`http://127.0.0.1:5000`, scheme included, and not the documented
`127.0.0.1:5000`. -/
theorem formatHTTPAddr_documented_example :
    formatHTTPAddr "http://127.0.0.1:8831".toList 5000 =
      ("http://127.0.0.1:5000".toList, none) ∧
    (formatHTTPAddr "http://127.0.0.1:8831".toList 5000).1 ≠ "127.0.0.1:5000".toList := by
  decide

/-- C4: `formatHTTPAddr` agrees with the reference definition on every
address and port: with exactly two `:` the result is the address up to and
including its last `:` followed by the decimal port, without error; otherwise
it is the empty string with an error whose cause is `ErrParseLeaderAddr`.
With three pieces the first two are unchanged and only the third is
replaced. -/
theorem formatHTTPAddr_eq_ref (grpcAddr : List Char) (httpPort : Int) :
    ((formatHTTPAddr grpcAddr httpPort).1,
        (formatHTTPAddr grpcAddr httpPort).2.map GoError.Cause) =
      formatHTTPAddr_ref grpcAddr httpPort ∧
    (match stringsSplit ':' grpcAddr with
     | [a, b, _] =>
       (formatHTTPAddr grpcAddr httpPort).1 = a ++ ':' :: (b ++ ':' :: strconvItoa httpPort)
     | _ => (formatHTTPAddr grpcAddr httpPort).1 = []) := by
  by_cases hlen : (stringsSplit ':' grpcAddr).length = 3
  · obtain ⟨a, b, c, h⟩ := exists_three_of_length _ hlen
    obtain ⟨hs, _, _, hc⟩ := stringsSplit_three ':' grpcAddr a b c h
    have hcount : grpcAddr.count ':' = 2 := by
      have := length_stringsSplit ':' grpcAddr
      omega
    have hpre : throughLastColon grpcAddr = a ++ ':' :: (b ++ [':']) := by
      have e : grpcAddr = (a ++ ':' :: b) ++ ':' :: c := by rw [hs]; simp
      rw [e, throughLastColon_append _ _ hc]
      simp
    refine ⟨?_, ?_⟩
    · rw [formatHTTPAddr_of_three grpcAddr a b c httpPort h]
      simp [formatHTTPAddr_ref, hcount, hpre]
    · rw [h]
      simp [formatHTTPAddr_of_three grpcAddr a b c httpPort h]
  · have hcount : grpcAddr.count ':' ≠ 2 := by
      have := length_stringsSplit ':' grpcAddr
      omega
    refine ⟨?_, ?_⟩
    · rw [formatHTTPAddr_of_length_ne grpcAddr httpPort hlen]
      simp [formatHTTPAddr_ref, hcount, GoError.Cause]
    · split
      · rename_i a b c h
        exact absurd (by rw [h]; rfl) hlen
      · rw [formatHTTPAddr_of_length_ne grpcAddr httpPort hlen]

/-- C5 (counterexample): the hostname endpoints of the claim are accepted,
without error. -/
theorem formatHTTPAddr_localhost :
    formatHTTPAddr "http://localhost:8831".toList 5000 =
      ("http://localhost:5000".toList, none) ∧
    formatHTTPAddr "http://meta-0.example.com:8831".toList 5000 =
      ("http://meta-0.example.com:5000".toList, none) := by
  decide

/-- What the code returns for an address with a scheme: for
`http://<host>:<port>` with no `:` in host and port, all three pieces are
joined again, so the scheme stays in the result. -/
theorem formatHTTPAddr_keeps_scheme (host port : List Char) (httpPort : Int)
    (hhost : ':' ∉ host) (hport : ':' ∉ port) :
    formatHTTPAddr ("http://".toList ++ host ++ ':' :: port) httpPort =
      ("http://".toList ++ host ++ ':' :: strconvItoa httpPort, none) := by
  have h : stringsSplit ':' ("http://".toList ++ host ++ ':' :: port) =
      ["http".toList, '/' :: '/' :: host, port] := by
    have e : "http://".toList ++ host ++ ':' :: port =
        "http".toList ++ ':' :: (('/' :: '/' :: host) ++ ':' :: port) := by simp
    rw [e, stringsSplit_append_sep _ _ _ (by decide), stringsSplit_append_sep,
      stringsSplit_of_not_mem _ _ hport]
    simp only [List.mem_cons, not_or]
    exact ⟨by decide, by decide, hhost⟩
  rw [formatHTTPAddr_of_three _ _ _ _ httpPort h]
  simp

/-- C5 (amended): the host is not inspected and hostnames are not rejected.
An endpoint `http://<host>:<port>` whose host and port contain no `:`,
hostname or address alike, is accepted, without error, for every port; the
same endpoint without its scheme is rejected; and in general an address is
rejected exactly when it does not contain exactly two `:`, always with an
error whose cause is `ErrParseLeaderAddr`. -/
theorem formatHTTPAddr_accepts_hostname (host port : List Char) (httpPort : Int)
    (hhost : ':' ∉ host) (hport : ':' ∉ port) :
    (formatHTTPAddr ("http://".toList ++ host ++ ':' :: port) httpPort).2 = none ∧
    (∃ err, formatHTTPAddr (host ++ ':' :: port) httpPort = ([], some err) ∧
      err.Cause = GoError.ErrParseLeaderAddr) ∧
    (∀ grpcAddr : List Char,
      ((formatHTTPAddr grpcAddr httpPort).2 = none ↔ grpcAddr.count ':' = 2)) ∧
    ∀ (grpcAddr : List Char) (err : GoError),
      (formatHTTPAddr grpcAddr httpPort).2 = some err →
        err.Cause = GoError.ErrParseLeaderAddr := by
  refine ⟨?_, ?_, ?_, ?_⟩
  · rw [formatHTTPAddr_keeps_scheme host port httpPort hhost hport]
  · have h : stringsSplit ':' (host ++ ':' :: port) = [host, port] := by
      rw [stringsSplit_append_sep _ _ _ hhost, stringsSplit_of_not_mem _ _ hport]
    refine ⟨_, formatHTTPAddr_of_length_ne _ httpPort (by rw [h]; simp), rfl⟩
  · intro grpcAddr
    have hlen := length_stringsSplit ':' grpcAddr
    by_cases h3 : (stringsSplit ':' grpcAddr).length = 3
    · obtain ⟨a, b, c, h⟩ := exists_three_of_length _ h3
      rw [formatHTTPAddr_of_three grpcAddr a b c httpPort h]
      simp
      omega
    · rw [formatHTTPAddr_of_length_ne grpcAddr httpPort h3]
      simp
      omega
  · intro grpcAddr err herr
    by_cases h3 : (stringsSplit ':' grpcAddr).length = 3
    · obtain ⟨a, b, c, h⟩ := exists_three_of_length _ h3
      rw [formatHTTPAddr_of_three grpcAddr a b c httpPort h] at herr
      simp at herr
    · rw [formatHTTPAddr_of_length_ne grpcAddr httpPort h3] at herr
      simp only [Option.some.injEq] at herr
      rw [← herr]
      rfl

/-- C5 (witness): the hostname `localhost` with port `8831`. -/
theorem formatHTTPAddr_accepts_hostname_witness :
    (formatHTTPAddr ("http://".toList ++ "localhost".toList ++ ':' :: "8831".toList)
      5000).2 = none ∧
    (∃ err, formatHTTPAddr ("localhost".toList ++ ':' :: "8831".toList) 5000 = ([], some err) ∧
      err.Cause = GoError.ErrParseLeaderAddr) ∧
    (∀ grpcAddr : List Char,
      ((formatHTTPAddr grpcAddr 5000).2 = none ↔ grpcAddr.count ':' = 2)) ∧
    ∀ (grpcAddr : List Char) (err : GoError),
      (formatHTTPAddr grpcAddr 5000).2 = some err → err.Cause = GoError.ErrParseLeaderAddr :=
  formatHTTPAddr_accepts_hostname "localhost".toList "8831".toList 5000
    (by decide) (by decide)

/-- C15: on a follower whose leader address formats without error,
`forwardToLeader` changes three things of the request and nothing else:
`RequestURI` is cleared, `URL.Scheme` is `http` exactly when `req.TLS` is
nil and `https` otherwise, and `URL.Host` is the result of `formatHTTPAddr`
on the leader endpoint and the configured port; the request so changed is the
one handed to the client, with the method, URL path and query, headers and
body it came with. -/
theorem forwardToLeader_frame (s : ForwardClient) (req : Request) (member : GetLeaderResp)
    (leader : Member) (addr : List Char)
    (hmember : s.member = (member, none)) (hlocal : member.IsLocal = false)
    (hleader : member.Leader = some leader)
    (haddr : formatHTTPAddr leader.Endpoint.toList s.port = (addr, none)) :
    ∃ out, s.forwardToLeader req = some out ∧
      out.req =
        { req with
          RequestURI := ""
          URL := { req.URL with
                   Scheme := if req.TLS = none then "http" else "https"
                   Host := String.mk addr } } ∧
      out.sent = some out.req ∧
      (out.req.URL.Scheme = "http" ↔ req.TLS = none) ∧
      (out.req.URL.Scheme = "https" ↔ req.TLS ≠ none) ∧
      out.req.Method = req.Method ∧ out.req.URL.Path = req.URL.Path ∧
      out.req.URL.RawQuery = req.URL.RawQuery ∧ out.req.Header = req.Header ∧
      out.req.Body = req.Body ∧ out.req.TLS = req.TLS := by
  have haddr' : formatHTTPAddr leader.Endpoint.data s.port = (addr, none) := haddr
  have hfwd : s.getForwardedAddr = some (addr, false, none) := by
    simp [ForwardClient.getForwardedAddr, hmember, hlocal, hleader, haddr']
  unfold ForwardClient.forwardToLeader
  rw [hfwd]
  dsimp only
  cases hTLS : req.TLS with
  | none =>
    simp only [Bool.false_eq_true, if_false, if_true]
    split <;> exact ⟨_, rfl, by simp [hTLS]⟩
  | some tls =>
    simp only [Bool.false_eq_true, if_false, reduceCtorEq]
    split <;> exact ⟨_, rfl, by simp [hTLS]⟩

/-- C15 (witness): the example request on the example follower. -/
theorem forwardToLeader_frame_witness :
    ∃ out, exampleForwardClient.forwardToLeader exampleHTTPRequest = some out ∧
      out.req =
        { exampleHTTPRequest with
          RequestURI := ""
          URL := { exampleHTTPRequest.URL with
                   Scheme := if exampleHTTPRequest.TLS = none then "http" else "https"
                   Host := String.mk "http://127.0.0.1:5000".toList } } ∧
      out.sent = some out.req ∧
      (out.req.URL.Scheme = "http" ↔ exampleHTTPRequest.TLS = none) ∧
      (out.req.URL.Scheme = "https" ↔ exampleHTTPRequest.TLS ≠ none) ∧
      out.req.Method = exampleHTTPRequest.Method ∧
      out.req.URL.Path = exampleHTTPRequest.URL.Path ∧
      out.req.URL.RawQuery = exampleHTTPRequest.URL.RawQuery ∧
      out.req.Header = exampleHTTPRequest.Header ∧
      out.req.Body = exampleHTTPRequest.Body ∧ out.req.TLS = exampleHTTPRequest.TLS :=
  forwardToLeader_frame exampleForwardClient exampleHTTPRequest
    { Leader := some { Endpoint := "http://127.0.0.1:8831" }, IsLocal := false }
    { Endpoint := "http://127.0.0.1:8831" } "http://127.0.0.1:5000".toList
    rfl rfl rfl (by decide)

end http

/-! ## The drop-table procedure -/

namespace procedure

theorem Event_prepare_begin (pb : clusterpb.Enums) (req : dropTableCallbackRequest)
    (trace : List Effect) :
    FSM.Event pb { current := stateDropTableBegin } eventDropTablePrepare req trace =
      ((dropTablePrepareCallback pb
          (FsmEvent.fresh eventDropTablePrepare stateDropTableBegin stateDropTableWaiting)
          req trace).1.Err,
        { current := stateDropTableWaiting },
        (dropTablePrepareCallback pb
          (FsmEvent.fresh eventDropTablePrepare stateDropTableBegin stateDropTableWaiting)
          req trace).2.1,
        (dropTablePrepareCallback pb
          (FsmEvent.fresh eventDropTablePrepare stateDropTableBegin stateDropTableWaiting)
          req trace).2.2) := by
  rfl

theorem Event_failed_waiting (pb : clusterpb.Enums) (req : dropTableCallbackRequest)
    (trace : List Effect) :
    FSM.Event pb { current := stateDropTableWaiting } eventDropTableFailed req trace =
      (none, { current := stateDropTableFailed }, req,
        trace ++ Effect.onFailed none ::
          (match req.onFailed trace none with
           | some _ => [Effect.log "error" "exec failed callback failed"]
           | none => [])) := by
  have h : FSM.Event pb { current := stateDropTableWaiting } eventDropTableFailed req trace =
      ((dropTableFailedCallback
          (FsmEvent.fresh eventDropTableFailed stateDropTableWaiting stateDropTableFailed)
          req trace).1.Err,
        { current := stateDropTableFailed },
        (dropTableFailedCallback
          (FsmEvent.fresh eventDropTableFailed stateDropTableWaiting stateDropTableFailed)
          req trace).2.1,
        (dropTableFailedCallback
          (FsmEvent.fresh eventDropTableFailed stateDropTableWaiting stateDropTableFailed)
          req trace).2.2) := by
    rfl
  rw [h]
  unfold dropTableFailedCallback FsmEvent.fresh
  cases req.onFailed trace none <;> simp

theorem Event_success_waiting (pb : clusterpb.Enums) (req : dropTableCallbackRequest)
    (trace : List Effect) :
    FSM.Event pb { current := stateDropTableWaiting } eventDropTableSuccess req trace =
      (none, { current := stateDropTableFinish }, req,
        trace ++ Effect.onSucceeded req.ret ::
          (match req.onSucceeded trace req.ret with
           | some _ => [Effect.log "error" "exec success callback failed"]
           | none => [])) := by
  have h : FSM.Event pb { current := stateDropTableWaiting } eventDropTableSuccess req trace =
      ((dropTableSuccessCallback
          (FsmEvent.fresh eventDropTableSuccess stateDropTableWaiting stateDropTableFinish)
          req trace).1.Err,
        { current := stateDropTableFinish },
        (dropTableSuccessCallback
          (FsmEvent.fresh eventDropTableSuccess stateDropTableWaiting stateDropTableFinish)
          req trace).2.1,
        (dropTableSuccessCallback
          (FsmEvent.fresh eventDropTableSuccess stateDropTableWaiting stateDropTableFinish)
          req trace).2.2) := by
    rfl
  rw [h]
  unfold dropTableSuccessCallback FsmEvent.fresh
  cases req.onSucceeded trace req.ret <;> simp

/-- `Start` on a procedure whose machine is in its first state, in terms of
the result of the prepare callback. -/
theorem Start_begin (pb : clusterpb.Enums) (p : DropTableProcedure) (trace : List Effect)
    (hfsm : p.fsm = { current := stateDropTableBegin }) :
    p.Start pb trace =
      match (p.prepared pb trace).1.Err with
      | some err =>
        (some (GoError.WithMessage err "send eventDropTablePrepare"),
          { p with fsm := { current := stateDropTableFailed }, state := State.StateFailed },
          (p.prepared pb trace).2.2 ++ Effect.onFailed none ::
            ((match (p.prepared pb trace).2.1.onFailed (p.prepared pb trace).2.2 none with
              | some _ => [Effect.log "error" "exec failed callback failed"]
              | none => []) ++ [Effect.updateState State.StateFailed]))
      | none =>
        (none,
          { p with fsm := { current := stateDropTableFinish }, state := State.StateFinished },
          (p.prepared pb trace).2.2 ++ Effect.onSucceeded (p.prepared pb trace).2.1.ret ::
            ((match (p.prepared pb trace).2.1.onSucceeded (p.prepared pb trace).2.2
                (p.prepared pb trace).2.1.ret with
              | some _ => [Effect.log "error" "exec success callback failed"]
              | none => []) ++ [Effect.updateState State.StateFinished])) := by
  unfold DropTableProcedure.Start DropTableProcedure.updateState
  simp only [hfsm, Event_prepare_begin]
  unfold DropTableProcedure.prepared DropTableProcedure.request
  cases hE : (dropTablePrepareCallback pb
      (FsmEvent.fresh eventDropTablePrepare stateDropTableBegin stateDropTableWaiting)
      { cluster := p.cluster, dispatch := p.dispatch, rawReq := p.req,
        onSucceeded := p.onSucceeded, onFailed := p.onFailed,
        ret := { ID := 0, Name := "", SchemaID := 0, SchemaName := "" } }
      (trace ++ [Effect.updateState State.StateRunning])).1.Err with
  | none => simp [Event_success_waiting]
  | some err => simp [Event_failed_waiting]

/-- C6: dropping a table the cluster does not have succeeds without touching
anything: on a fresh procedure whose `GetTable` answers not found without
error, `Start` returns nil, the state ends as `StateFinished`, neither
`cluster.DropTable` nor `dispatch.DropTableOnShard` is called, a warning is
logged, `onSucceeded` is invoked and `onFailed` is not. -/
theorem Start_absent_table (pb : clusterpb.Enums) (dispatch : Dispatch) (cluster : Cluster)
    (id : Nat) (req : DropTableRequest) (onSucceeded : List Effect → TableInfo → Option GoError)
    (onFailed : List Effect → Option GoError → Option GoError) (table : Table)
    (hget : cluster.GetTable [Effect.updateState State.StateRunning] req.SchemaName req.Name =
      (table, false, none)) :
    ((NewDropTableProcedure dispatch cluster id req onSucceeded onFailed).Start pb []).1 = none ∧
    ((NewDropTableProcedure dispatch cluster id req onSucceeded onFailed).Start pb []).2.1.State =
      State.StateFinished ∧
    (∀ schemaName name, Effect.DropTable schemaName name ∉
      ((NewDropTableProcedure dispatch cluster id req onSucceeded onFailed).Start pb []).2.2) ∧
    dispatches
      ((NewDropTableProcedure dispatch cluster id req onSucceeded onFailed).Start pb []).2.2 = [] ∧
    Effect.log "warn" "drop non-existing table" ∈
      ((NewDropTableProcedure dispatch cluster id req onSucceeded onFailed).Start pb []).2.2 ∧
    lifecycleCalls State.StateInit
      ((NewDropTableProcedure dispatch cluster id req onSucceeded onFailed).Start pb []).2.2 =
      [(Effect.onSucceeded { ID := 0, Name := "", SchemaID := 0, SchemaName := "" },
        State.StateRunning)] := by
  have hprep : (NewDropTableProcedure dispatch cluster id req onSucceeded onFailed).prepared pb [] =
      (FsmEvent.fresh eventDropTablePrepare stateDropTableBegin stateDropTableWaiting,
        (NewDropTableProcedure dispatch cluster id req onSucceeded onFailed).request,
        [Effect.updateState State.StateRunning, Effect.GetTable req.SchemaName req.Name,
          Effect.log "warn" "drop non-existing table"]) := by
    simp [DropTableProcedure.prepared, dropTablePrepareCallback, DropTableProcedure.request,
      NewDropTableProcedure, hget]
  rw [Start_begin pb _ [] rfl, hprep]
  simp only [FsmEvent.fresh, DropTableProcedure.request, NewDropTableProcedure,
    DropTableProcedure.State]
  cases onSucceeded [Effect.updateState State.StateRunning,
      Effect.GetTable req.SchemaName req.Name, Effect.log "warn" "drop non-existing table"]
      { ID := 0, Name := "", SchemaID := 0, SchemaName := "" } <;>
    simp [dispatches, lifecycleCalls]

/-- The prepare callback when the table is found, dropped, and its shard has
a leader: one dispatch, then the outcome of the dispatch decides. -/
theorem prepared_found (pb : clusterpb.Enums) (p : DropTableProcedure) (table : Table)
    (result : DropTableResult) (shard : Shard) (leader : Leader)
    (hget : p.cluster.GetTable [Effect.updateState State.StateRunning]
      p.req.SchemaName p.req.Name = (table, true, none))
    (hdrop : p.cluster.DropTable
      [Effect.updateState State.StateRunning, Effect.GetTable p.req.SchemaName p.req.Name]
      p.req.SchemaName p.req.Name = (result, none))
    (hshard : p.cluster.GetShardByID
      [Effect.updateState State.StateRunning, Effect.GetTable p.req.SchemaName p.req.Name,
        Effect.DropTable p.req.SchemaName p.req.Name] table.ShardID = (shard, none))
    (hleader : shard.GetLeader = some leader) :
    p.prepared pb [] =
      match p.dispatch.DropTableOnShard
        [Effect.updateState State.StateRunning, Effect.GetTable p.req.SchemaName p.req.Name,
          Effect.DropTable p.req.SchemaName p.req.Name, Effect.GetShardByID table.ShardID]
        leader.Node
        { UpdateShardInfo :=
            { CurrShardInfo :=
                { ID := result.ShardVersionUpdate.ShardID
                  Role := pb.ShardRole_LEADER
                  Version := result.ShardVersionUpdate.CurrVersion }
              PrevVersion := result.ShardVersionUpdate.PrevVersion }
          TableInfo :=
            { ID := table.ID, Name := table.Name, SchemaID := table.SchemaID,
              SchemaName := table.SchemaName } } with
      | some err =>
        ((FsmEvent.fresh eventDropTablePrepare stateDropTableBegin stateDropTableWaiting).Cancel
            (GoError.WithMessage err "dispatch drop table on shard"),
          p.request,
          [Effect.updateState State.StateRunning, Effect.GetTable p.req.SchemaName p.req.Name,
            Effect.DropTable p.req.SchemaName p.req.Name, Effect.GetShardByID table.ShardID,
            Effect.DropTableOnShard leader.Node
              { UpdateShardInfo :=
                  { CurrShardInfo :=
                      { ID := result.ShardVersionUpdate.ShardID
                        Role := pb.ShardRole_LEADER
                        Version := result.ShardVersionUpdate.CurrVersion }
                    PrevVersion := result.ShardVersionUpdate.PrevVersion }
                TableInfo :=
                  { ID := table.ID, Name := table.Name, SchemaID := table.SchemaID,
                    SchemaName := table.SchemaName } },
            Effect.log "error" "dispatch drop table on shard"])
      | none =>
        (FsmEvent.fresh eventDropTablePrepare stateDropTableBegin stateDropTableWaiting,
          { p.request with ret := table.Info },
          [Effect.updateState State.StateRunning, Effect.GetTable p.req.SchemaName p.req.Name,
            Effect.DropTable p.req.SchemaName p.req.Name, Effect.GetShardByID table.ShardID,
            Effect.DropTableOnShard leader.Node
              { UpdateShardInfo :=
                  { CurrShardInfo :=
                      { ID := result.ShardVersionUpdate.ShardID
                        Role := pb.ShardRole_LEADER
                        Version := result.ShardVersionUpdate.CurrVersion }
                    PrevVersion := result.ShardVersionUpdate.PrevVersion }
                TableInfo :=
                  { ID := table.ID, Name := table.Name, SchemaID := table.SchemaID,
                    SchemaName := table.SchemaName } }]) := by
  simp only [DropTableProcedure.prepared, dropTablePrepareCallback, DropTableProcedure.request,
    List.nil_append, List.singleton_append, List.cons_append, hget, hdrop, hshard, hleader,
    cancelEventWithLog]
  simp only [Bool.not_true, Bool.false_eq_true, if_false]

/-- C7 (counterexample): the table is recorded on shard 7 and the cluster
reports the update of shard 8 when it drops it.  The one dispatch goes to
`node0`, the leader of shard 7, the only shard looked up, with a request that
names shard 8, whose leader is on `node8`. -/
theorem Start_dispatch_names_other_shard :
    ((exampleProcedure dispatchOk clusterOtherShard).Start clusterpb.Enums.declared []).2.2 =
      [Effect.updateState State.StateRunning, Effect.GetTable "s" "t", Effect.DropTable "s" "t",
        Effect.GetShardByID 7,
        Effect.DropTableOnShard "node0"
          { UpdateShardInfo :=
              { CurrShardInfo :=
                  { ID := 8, Role := clusterpb.Enums.declared.ShardRole_LEADER, Version := 4 }
                PrevVersion := 3 }
            TableInfo := { ID := 1, Name := "t", SchemaID := 2, SchemaName := "s" } },
        Effect.onSucceeded { ID := 1, Name := "t", SchemaID := 2, SchemaName := "s" },
        Effect.updateState State.StateFinished] ∧
    (clusterOtherShard.GetShardByID
      [Effect.updateState State.StateRunning, Effect.GetTable "s" "t", Effect.DropTable "s" "t"]
      8).1.GetLeader = some { Node := "node8" } ∧
    ¬ (dispatches
        ((exampleProcedure dispatchOk clusterOtherShard).Start clusterpb.Enums.declared []).2.2).map
      Prod.fst = ["node8"] := by
  refine ⟨rfl, rfl, ?_⟩
  decide

/-- C7 (amended): when the table is found, the cluster drops it with result
`r`, and the shard the table record names has a leader, `Start` dispatches
exactly once, to the node of that leader, the version tuple and shard id of
`r` with role LEADER and the id, name, schema id and schema name of the table
found; the only shard looked up for its leader is the one the table record
names, which is the shard named in the request whenever `r` reports that
shard. -/
theorem Start_dispatches_to_leader (pb : clusterpb.Enums) (dispatch : Dispatch)
    (cluster : Cluster) (id : Nat) (req : DropTableRequest)
    (onSucceeded : List Effect → TableInfo → Option GoError)
    (onFailed : List Effect → Option GoError → Option GoError)
    (table : Table) (result : DropTableResult) (shard : Shard) (leader : Leader)
    (hget : cluster.GetTable [Effect.updateState State.StateRunning]
      req.SchemaName req.Name = (table, true, none))
    (hdrop : cluster.DropTable
      [Effect.updateState State.StateRunning, Effect.GetTable req.SchemaName req.Name]
      req.SchemaName req.Name = (result, none))
    (hshard : cluster.GetShardByID
      [Effect.updateState State.StateRunning, Effect.GetTable req.SchemaName req.Name,
        Effect.DropTable req.SchemaName req.Name] table.ShardID = (shard, none))
    (hleader : shard.GetLeader = some leader) :
    dispatches
        ((NewDropTableProcedure dispatch cluster id req onSucceeded onFailed).Start pb []).2.2 =
      [(leader.Node,
        { UpdateShardInfo :=
            { CurrShardInfo :=
                { ID := result.ShardVersionUpdate.ShardID
                  Role := pb.ShardRole_LEADER
                  Version := result.ShardVersionUpdate.CurrVersion }
              PrevVersion := result.ShardVersionUpdate.PrevVersion }
          TableInfo :=
            { ID := table.ID, Name := table.Name, SchemaID := table.SchemaID,
              SchemaName := table.SchemaName } })] ∧
    (∀ shardID, Effect.GetShardByID shardID ∈
        ((NewDropTableProcedure dispatch cluster id req onSucceeded onFailed).Start pb []).2.2 ↔
      shardID = table.ShardID) ∧
    (result.ShardVersionUpdate.ShardID = table.ShardID →
      ∀ shardID, Effect.GetShardByID shardID ∈
          ((NewDropTableProcedure dispatch cluster id req onSucceeded onFailed).Start pb []).2.2 ↔
        shardID = result.ShardVersionUpdate.ShardID) := by
  have hprep := prepared_found pb
    (NewDropTableProcedure dispatch cluster id req onSucceeded onFailed) table result shard leader
    hget hdrop hshard hleader
  have hlookup : ∀ shardID, Effect.GetShardByID shardID ∈
      ((NewDropTableProcedure dispatch cluster id req onSucceeded onFailed).Start pb []).2.2 ↔
      shardID = table.ShardID := by
    rw [Start_begin pb _ [] rfl, hprep]
    simp only [NewDropTableProcedure, DropTableProcedure.request]
    cases dispatch.DropTableOnShard
      [Effect.updateState State.StateRunning, Effect.GetTable req.SchemaName req.Name,
        Effect.DropTable req.SchemaName req.Name, Effect.GetShardByID table.ShardID]
      leader.Node
      { UpdateShardInfo :=
          { CurrShardInfo :=
              { ID := result.ShardVersionUpdate.ShardID
                Role := pb.ShardRole_LEADER
                Version := result.ShardVersionUpdate.CurrVersion }
            PrevVersion := result.ShardVersionUpdate.PrevVersion }
        TableInfo :=
          { ID := table.ID, Name := table.Name, SchemaID := table.SchemaID,
            SchemaName := table.SchemaName } } with
    | none =>
      simp only [FsmEvent.fresh]
      intro shardID
      split <;> simp
    | some err =>
      simp only [FsmEvent.fresh, FsmEvent.Cancel]
      intro shardID
      split <;> simp
  refine ⟨?_, hlookup, ?_⟩
  · rw [Start_begin pb _ [] rfl, hprep]
    simp only [NewDropTableProcedure, DropTableProcedure.request]
    cases dispatch.DropTableOnShard
      [Effect.updateState State.StateRunning, Effect.GetTable req.SchemaName req.Name,
        Effect.DropTable req.SchemaName req.Name, Effect.GetShardByID table.ShardID]
      leader.Node
      { UpdateShardInfo :=
          { CurrShardInfo :=
              { ID := result.ShardVersionUpdate.ShardID
                Role := pb.ShardRole_LEADER
                Version := result.ShardVersionUpdate.CurrVersion }
            PrevVersion := result.ShardVersionUpdate.PrevVersion }
        TableInfo :=
          { ID := table.ID, Name := table.Name, SchemaID := table.SchemaID,
            SchemaName := table.SchemaName } } with
    | none =>
      simp only [FsmEvent.fresh]
      split <;> simp [dispatches]
    | some err =>
      simp only [FsmEvent.fresh, FsmEvent.Cancel]
      split <;> simp [dispatches]
  · intro hsame shardID
    rw [hsame]
    exact hlookup shardID

theorem lifecycleCalls_append (init : State) (a b : List Effect) :
    lifecycleCalls init (a ++ b) = lifecycleCalls init a ++ lifecycleCalls (stateAfter init a) b := by
  induction a generalizing init with
  | nil => simp [lifecycleCalls, stateAfter]
  | cons e rest ih => cases e <;> simp [lifecycleCalls, stateAfter, ih]

theorem stateAfter_append (init : State) (a b : List Effect) :
    stateAfter init (a ++ b) = stateAfter (stateAfter init a) b := by
  induction a generalizing init with
  | nil => simp [stateAfter]
  | cons e rest ih => cases e <;> simp [stateAfter, ih]

theorem dispatches_append (a b : List Effect) :
    dispatches (a ++ b) = dispatches a ++ dispatches b := by
  induction a with
  | nil => simp [dispatches]
  | cons e rest ih => cases e <;> simp [dispatches, ih]

theorem stateAfter_of_not_update (init : State) (mid : List Effect)
    (h : ∀ e ∈ mid, e.isUpdateState = false) : stateAfter init mid = init := by
  induction mid with
  | nil => rfl
  | cons e rest ih =>
    have he := h e (by simp)
    have hr := ih (fun x hx => h x (by simp [hx]))
    cases e <;> simp_all [stateAfter, Effect.isUpdateState]

theorem lifecycleCalls_of_inner (init : State) (mid : List Effect)
    (h : ∀ e ∈ mid, e.inner = true) : lifecycleCalls init mid = [] := by
  induction mid with
  | nil => rfl
  | cons e rest ih =>
    have he := h e (by simp)
    have hr := ih (fun x hx => h x (by simp [hx]))
    cases e <;> simp_all [lifecycleCalls, Effect.inner]

theorem isUpdateState_of_inner (e : Effect) (h : e.inner = true) : e.isUpdateState = false := by
  cases e <;> simp_all [Effect.inner, Effect.isUpdateState]

/-- Whatever the collaborators answer, the prepare callback only adds calls
on the cluster and the dispatcher and log lines to the trace, with at most
one dispatch among them. -/
theorem dropTablePrepareCallback_trace (pb : clusterpb.Enums) (event : FsmEvent)
    (request : dropTableCallbackRequest) (trace : List Effect) :
    ∃ mid, (dropTablePrepareCallback pb event request trace).2.2 = trace ++ mid ∧
      (∀ e ∈ mid, e.inner = true) ∧ (dispatches mid).length ≤ 1 := by
  unfold dropTablePrepareCallback cancelEventWithLog
  simp only []
  split
  · exact ⟨_, by simp only [List.append_assoc]; rfl, by simp [Effect.inner], by simp [dispatches]⟩
  · split
    · exact ⟨_, by simp only [List.append_assoc]; rfl, by simp [Effect.inner],
        by simp [dispatches]⟩
    · split
      · exact ⟨_, by simp only [List.append_assoc]; rfl, by simp [Effect.inner],
          by simp [dispatches]⟩
      · split
        · exact ⟨_, by simp only [List.append_assoc]; rfl, by simp [Effect.inner],
            by simp [dispatches]⟩
        · split
          · exact ⟨_, by simp only [List.append_assoc]; rfl, by simp [Effect.inner],
              by simp [dispatches]⟩
          · split
            · exact ⟨_, by simp only [List.append_assoc]; rfl, by simp [Effect.inner],
                by simp [dispatches]⟩
            · exact ⟨_, by simp only [List.append_assoc]; rfl, by simp [Effect.inner],
                by simp [dispatches]⟩

theorem prepared_trace (pb : clusterpb.Enums) (p : DropTableProcedure) :
    ∃ mid, (p.prepared pb []).2.2 = Effect.updateState State.StateRunning :: mid ∧
      (∀ e ∈ mid, e.inner = true) ∧ (dispatches mid).length ≤ 1 := by
  obtain ⟨mid, h1, h2, h3⟩ := dropTablePrepareCallback_trace pb
    (FsmEvent.fresh eventDropTablePrepare stateDropTableBegin stateDropTableWaiting)
    p.request ([] ++ [Effect.updateState State.StateRunning])
  exact ⟨mid, by simpa [DropTableProcedure.prepared] using h1, h2, h3⟩

/-- C8 (amended): in every run of `Start` on a fresh procedure exactly one
lifecycle callback is invoked, and at that moment `State()` returns
`StateRunning`; the terminal state is stored by the last step of `Start`,
after the callback has returned: `StateFinished` after `onSucceeded` (and
`Start` returns nil), `StateFailed` after `onFailed` (and `Start` returns an
error). -/
theorem Start_callback_while_running (pb : clusterpb.Enums) (dispatch : Dispatch)
    (cluster : Cluster) (id : Nat) (req : DropTableRequest)
    (onSucceeded : List Effect → TableInfo → Option GoError)
    (onFailed : List Effect → Option GoError → Option GoError) :
    (((NewDropTableProcedure dispatch cluster id req onSucceeded onFailed).Start pb []).1 = none ∧
      ((NewDropTableProcedure dispatch cluster id req onSucceeded onFailed).Start pb []).2.1.State =
        State.StateFinished ∧
      (∃ ret, lifecycleCalls State.StateInit
        ((NewDropTableProcedure dispatch cluster id req onSucceeded onFailed).Start pb []).2.2 =
          [(Effect.onSucceeded ret, State.StateRunning)]) ∧
      ∃ before,
        ((NewDropTableProcedure dispatch cluster id req onSucceeded onFailed).Start pb []).2.2 =
          before ++ [Effect.updateState State.StateFinished]) ∨
    ((∃ err,
        ((NewDropTableProcedure dispatch cluster id req onSucceeded onFailed).Start pb []).1 =
          some err) ∧
      ((NewDropTableProcedure dispatch cluster id req onSucceeded onFailed).Start pb []).2.1.State =
        State.StateFailed ∧
      (∃ err, lifecycleCalls State.StateInit
        ((NewDropTableProcedure dispatch cluster id req onSucceeded onFailed).Start pb []).2.2 =
          [(Effect.onFailed err, State.StateRunning)]) ∧
      ∃ before,
        ((NewDropTableProcedure dispatch cluster id req onSucceeded onFailed).Start pb []).2.2 =
          before ++ [Effect.updateState State.StateFailed]) := by
  obtain ⟨mid, h1, h2, _⟩ := prepared_trace pb
    (NewDropTableProcedure dispatch cluster id req onSucceeded onFailed)
  have hmid : ∀ s, lifecycleCalls s mid = [] := fun s => lifecycleCalls_of_inner s mid h2
  have hst : ∀ s, stateAfter s mid = s := fun s =>
    stateAfter_of_not_update s mid (fun e he => isUpdateState_of_inner e (h2 e he))
  rw [Start_begin pb _ [] rfl]
  generalize DropTableProcedure.prepared pb
    (NewDropTableProcedure dispatch cluster id req onSucceeded onFailed) [] = P at h1
  obtain ⟨ev, rq, tr⟩ := P
  simp only at h1
  subst h1
  dsimp only
  cases ev.Err with
  | none =>
    left
    dsimp only
    refine ⟨rfl, rfl, ⟨rq.ret, ?_⟩,
      ⟨Effect.updateState State.StateRunning :: (mid ++ Effect.onSucceeded rq.ret ::
        (match rq.onSucceeded (Effect.updateState State.StateRunning :: mid) rq.ret with
          | some _ => [Effect.log "error" "exec success callback failed"]
          | none => [])), ?_⟩⟩
    · split <;> simp [lifecycleCalls, lifecycleCalls_append, hmid, hst]
    · simp
  | some err =>
    right
    dsimp only
    refine ⟨⟨_, rfl⟩, rfl, ⟨none, ?_⟩,
      ⟨Effect.updateState State.StateRunning :: (mid ++ Effect.onFailed none ::
        (match rq.onFailed (Effect.updateState State.StateRunning :: mid) none with
          | some _ => [Effect.log "error" "exec failed callback failed"]
          | none => [])), ?_⟩⟩
    · split <;> simp [lifecycleCalls, lifecycleCalls_append, hmid, hst]
    · simp

theorem stateChanges_append (init : State) (a b : List Effect) :
    stateChanges init (a ++ b) = stateChanges init a ++ stateChanges (stateAfter init a) b := by
  induction a generalizing init with
  | nil => simp [stateChanges, stateAfter]
  | cons e rest ih =>
    cases e with
    | updateState state =>
      simp only [List.cons_append, stateChanges, stateAfter]
      split <;> simp [ih]
    | _ => simp [stateChanges, stateAfter, ih]

theorem stateChanges_of_not_update (init : State) (mid : List Effect)
    (h : ∀ e ∈ mid, e.isUpdateState = false) : stateChanges init mid = [] := by
  induction mid with
  | nil => rfl
  | cons e rest ih =>
    have he := h e (by simp)
    have hr := ih (fun x hx => h x (by simp [hx]))
    cases e <;> simp_all [stateChanges, Effect.isUpdateState]

theorem dropTableSuccessCallback_trace (event : FsmEvent) (req : dropTableCallbackRequest)
    (trace : List Effect) :
    ∃ mid, (dropTableSuccessCallback event req trace).2.2 = trace ++ mid ∧
      ∀ e ∈ mid, e.isUpdateState = false := by
  unfold dropTableSuccessCallback
  cases req.onSucceeded trace req.ret with
  | none => exact ⟨[Effect.onSucceeded req.ret], rfl, by simp [Effect.isUpdateState]⟩
  | some err =>
    exact ⟨[Effect.onSucceeded req.ret, Effect.log "error" "exec success callback failed"],
      by simp, by simp [Effect.isUpdateState]⟩

theorem dropTableFailedCallback_trace (event : FsmEvent) (req : dropTableCallbackRequest)
    (trace : List Effect) :
    ∃ mid, (dropTableFailedCallback event req trace).2.2 = trace ++ mid ∧
      ∀ e ∈ mid, e.isUpdateState = false := by
  unfold dropTableFailedCallback
  cases req.onFailed trace event.Err with
  | none => exact ⟨[Effect.onFailed event.Err], rfl, by simp [Effect.isUpdateState]⟩
  | some err =>
    exact ⟨[Effect.onFailed event.Err, Effect.log "error" "exec failed callback failed"],
      by simp, by simp [Effect.isUpdateState]⟩

theorem afterEventCallbacks_trace (pb : clusterpb.Enums) (e : FsmEvent)
    (req : dropTableCallbackRequest) (trace : List Effect) :
    ∃ mid, (afterEventCallbacks pb e req trace).2.2 = trace ++ mid ∧
      ∀ x ∈ mid, x.isUpdateState = false := by
  unfold afterEventCallbacks dropTableCallbacks
  by_cases h1 : e.Event = eventDropTablePrepare
  · simp only [h1, if_true]
    obtain ⟨mid, hm, hi, _⟩ := dropTablePrepareCallback_trace pb e req trace
    exact ⟨mid, hm, fun x hx => isUpdateState_of_inner x (hi x hx)⟩
  · by_cases h2 : e.Event = eventDropTableFailed
    · simp only [h1, h2, if_true, if_false]
      exact dropTableFailedCallback_trace e req trace
    · by_cases h3 : e.Event = eventDropTableSuccess
      · simp only [h1, h2, h3, if_true, if_false]
        exact dropTableSuccessCallback_trace e req trace
      · simp only [h1, h2, h3, if_false]
        exact ⟨[], by simp, by simp⟩

/-- Whatever the state of the machine and the event, `fsm.Event` only adds
to the trace, and never an `updateState`. -/
theorem Event_trace (pb : clusterpb.Enums) (f : FSM) (event : String)
    (req : dropTableCallbackRequest) (trace : List Effect) :
    ∃ mid, (FSM.Event pb f event req trace).2.2.2 = trace ++ mid ∧
      ∀ x ∈ mid, x.isUpdateState = false := by
  unfold FSM.Event
  split
  · split <;> exact ⟨[], by simp, by simp⟩
  · rename_i d _
    dsimp only
    split
    · obtain ⟨mid, hm, hi⟩ := afterEventCallbacks_trace pb
        { Event := event, Src := f.current, Dst := d.Dst, Err := none, canceled := false }
        req trace
      exact ⟨mid, hm, hi⟩
    · obtain ⟨mid, hm, hi⟩ := afterEventCallbacks_trace pb
        { Event := event, Src := f.current, Dst := d.Dst, Err := none, canceled := false }
        req trace
      exact ⟨mid, hm, hi⟩

/-- The trace of any `Start`: `updateState(StateRunning)` first, then effects
that are not an `updateState`, then at most one more `updateState`, to
`StateFinished` or `StateFailed`, which is the state afterwards. -/
theorem Start_trace (pb : clusterpb.Enums) (p : DropTableProcedure) (trace : List Effect) :
    ∃ mid tail, (p.Start pb trace).2.2 =
        trace ++ Effect.updateState State.StateRunning :: (mid ++ tail) ∧
      (∀ x ∈ mid, x.isUpdateState = false) ∧
      ((tail = [] ∧ (p.Start pb trace).2.1.state = State.StateRunning) ∨
        (tail = [Effect.updateState State.StateFinished] ∧
          (p.Start pb trace).2.1.state = State.StateFinished) ∨
        (tail = [Effect.updateState State.StateFailed] ∧
          (p.Start pb trace).2.1.state = State.StateFailed)) := by
  unfold DropTableProcedure.Start DropTableProcedure.updateState
  dsimp only
  obtain ⟨mid1, hm1, hi1⟩ := Event_trace pb p.fsm eventDropTablePrepare
    { cluster := p.cluster, dispatch := p.dispatch, rawReq := p.req,
      onSucceeded := p.onSucceeded, onFailed := p.onFailed,
      ret := { ID := 0, Name := "", SchemaID := 0, SchemaName := "" } }
    (trace ++ [Effect.updateState State.StateRunning])
  generalize FSM.Event pb p.fsm eventDropTablePrepare
    { cluster := p.cluster, dispatch := p.dispatch, rawReq := p.req,
      onSucceeded := p.onSucceeded, onFailed := p.onFailed,
      ret := { ID := 0, Name := "", SchemaID := 0, SchemaName := "" } }
    (trace ++ [Effect.updateState State.StateRunning]) = R1 at hm1 ⊢
  obtain ⟨err, f1, req1, tr1⟩ := R1
  dsimp only at hm1
  subst hm1
  cases err with
  | some err =>
    dsimp only
    obtain ⟨mid2, hm2, hi2⟩ := Event_trace pb f1 eventDropTableFailed req1
      (trace ++ [Effect.updateState State.StateRunning] ++ mid1)
    generalize FSM.Event pb f1 eventDropTableFailed req1
      (trace ++ [Effect.updateState State.StateRunning] ++ mid1) = R2 at hm2 ⊢
    obtain ⟨err1, f2, req2, tr2⟩ := R2
    dsimp only at hm2
    subst hm2
    refine ⟨mid1 ++ mid2, [Effect.updateState State.StateFailed], by simp, ?_, Or.inr (Or.inr ⟨rfl, rfl⟩)⟩
    intro x hx
    rcases List.mem_append.mp hx with h | h
    · exact hi1 x h
    · exact hi2 x h
  | none =>
    dsimp only
    obtain ⟨mid2, hm2, hi2⟩ := Event_trace pb f1 eventDropTableSuccess req1
      (trace ++ [Effect.updateState State.StateRunning] ++ mid1)
    generalize FSM.Event pb f1 eventDropTableSuccess req1
      (trace ++ [Effect.updateState State.StateRunning] ++ mid1) = R2 at hm2 ⊢
    obtain ⟨err1, f2, req2, tr2⟩ := R2
    dsimp only at hm2
    subst hm2
    have hmid : ∀ x ∈ mid1 ++ mid2, x.isUpdateState = false := by
      intro x hx
      rcases List.mem_append.mp hx with h | h
      · exact hi1 x h
      · exact hi2 x h
    cases err1 with
    | some e1 => exact ⟨mid1 ++ mid2, [], by simp, hmid, Or.inl ⟨rfl, rfl⟩⟩
    | none =>
      exact ⟨mid1 ++ mid2, [Effect.updateState State.StateFinished], by simp, hmid,
        Or.inr (Or.inl ⟨rfl, rfl⟩)⟩

theorem unguardedEdge_to_running (a : State) (h : a ≠ State.StateRunning) :
    unguardedEdge a State.StateRunning = true := by
  cases a <;> first | rfl | exact absurd rfl h

theorem unguardedEdge_to_cancelled (a : State) :
    unguardedEdge a State.StateCancelled = true := by
  cases a <;> rfl

/-- The invariant of a sequence of calls: the trace records the state of the
procedure, and every change so far is one `Start` or `Cancel` can make. -/
theorem run_invariant (pb : clusterpb.Enums) (calls : List Call) (p : DropTableProcedure)
    (trace : List Effect) (hstate : stateAfter State.StateInit trace = p.state)
    (hedges : ∀ change ∈ stateChanges State.StateInit trace,
      unguardedEdge change.1 change.2 = true) :
    ∀ change ∈ stateChanges State.StateInit (run pb calls (p, trace)).2,
      unguardedEdge change.1 change.2 = true := by
  induction calls generalizing p trace with
  | nil => simpa [run] using hedges
  | cons call rest ih =>
    cases call with
    | Start =>
      simp only [run]
      obtain ⟨mid, tail, ht, hmid, htail⟩ := Start_trace pb p trace
      have hsm : ∀ s, stateAfter s mid = s := fun s => stateAfter_of_not_update s mid hmid
      have hcm : ∀ s, stateChanges s mid = [] := fun s => stateChanges_of_not_update s mid hmid
      apply ih
      · rw [ht]
        rcases htail with ⟨h1, h2⟩ | ⟨h1, h2⟩ | ⟨h1, h2⟩ <;>
          simp [h1, h2, stateAfter_append, stateAfter, hsm]
      · rw [ht]
        intro change hchange
        rw [stateChanges_append, hstate, List.mem_append] at hchange
        rcases hchange with h | h
        · exact hedges change h
        · have hrun : ∀ c ∈ stateChanges State.StateRunning (mid ++ tail),
              unguardedEdge c.1 c.2 = true := by
            intro c hc
            rw [stateChanges_append, hcm, hsm, List.nil_append] at hc
            rcases htail with ⟨h1, _⟩ | ⟨h1, _⟩ | ⟨h1, _⟩ <;>
              simp [h1, stateChanges] at hc <;> subst hc <;> rfl
          by_cases hp : p.state = State.StateRunning
          · simp only [stateChanges, hp, if_true] at h
            exact hrun change h
          · simp only [stateChanges, hp, if_false, List.mem_cons] at h
            rcases h with h | h
            · subst h
              exact unguardedEdge_to_running p.state hp
            · exact hrun change h
    | Cancel =>
      simp only [run, DropTableProcedure.Cancel, DropTableProcedure.updateState]
      apply ih
      · simp [stateAfter_append, stateAfter]
      · intro change hchange
        rw [stateChanges_append, hstate, List.mem_append] at hchange
        rcases hchange with h | h
        · exact hedges change h
        · by_cases hp : p.state = State.StateCancelled
          · simp [stateChanges, hp] at h
          · simp only [stateChanges, hp, if_false, List.mem_singleton] at h
            subst h
            exact unguardedEdge_to_cancelled p.state

/-- C9 (amended): the state is stored without a guard.  Along every sequence
of `Start` and `Cancel` calls on a fresh procedure each change of `State()`
is an edge of the generic machine (Init to Running, Running to Finished,
Failed or Cancelled), or a `Cancel` moving any state to Cancelled, or a
later `Start` moving a terminal state back to Running. -/
theorem run_stateChanges (pb : clusterpb.Enums) (dispatch : Dispatch) (cluster : Cluster)
    (id : Nat) (req : DropTableRequest) (onSucceeded : List Effect → TableInfo → Option GoError)
    (onFailed : List Effect → Option GoError → Option GoError) (calls : List Call) :
    ∀ change ∈ stateChanges State.StateInit
        (run pb calls (NewDropTableProcedure dispatch cluster id req onSucceeded onFailed, [])).2,
      unguardedEdge change.1 change.2 = true :=
  run_invariant pb calls _ [] rfl (by simp [stateChanges])

/-- C9 (witness): the change from Finished to Cancelled made by `Start` then
`Cancel` on a procedure for a table the cluster does not have. -/
theorem run_stateChanges_witness :
    (State.StateFinished, State.StateCancelled) ∈
      stateChanges State.StateInit
        (run clusterpb.Enums.declared [Call.Start, Call.Cancel]
          (NewDropTableProcedure dispatchOk clusterWithoutTable 1 exampleRequest
            (fun _ _ => none) (fun _ _ => none), [])).2 ∧
    unguardedEdge State.StateFinished State.StateCancelled = true :=
  ⟨by decide,
    run_stateChanges clusterpb.Enums.declared dispatchOk clusterWithoutTable 1 exampleRequest
      (fun _ _ => none) (fun _ _ => none) [Call.Start, Call.Cancel]
      (State.StateFinished, State.StateCancelled) (by decide)⟩

/-- Whatever the collaborators answer, a `Start` on a fresh procedure
dispatches at most once. -/
theorem Start_dispatches_le_one (pb : clusterpb.Enums) (dispatch : Dispatch) (cluster : Cluster)
    (id : Nat) (req : DropTableRequest) (onSucceeded : List Effect → TableInfo → Option GoError)
    (onFailed : List Effect → Option GoError → Option GoError) :
    (dispatches
      ((NewDropTableProcedure dispatch cluster id req onSucceeded onFailed).Start
        pb []).2.2).length ≤ 1 := by
  obtain ⟨mid, h1, _, h3⟩ := prepared_trace pb
    (NewDropTableProcedure dispatch cluster id req onSucceeded onFailed)
  rw [Start_begin pb _ [] rfl]
  generalize DropTableProcedure.prepared pb
    (NewDropTableProcedure dispatch cluster id req onSucceeded onFailed) [] = P at h1
  obtain ⟨ev, rq, tr⟩ := P
  simp only at h1
  subst h1
  dsimp only
  cases ev.Err with
  | none =>
    dsimp only
    split <;> simpa [dispatches, dispatches_append] using h3
  | some err =>
    dsimp only
    split <;> simpa [dispatches, dispatches_append] using h3

/-- C10 (amended): a failed dispatch is not retried.  When the table is
found and dropped, its shard has a leader, and the dispatch to that leader
fails with any error, `Start` has dispatched exactly once, returns an error
wrapping the dispatch error and ends as `StateFailed`; and whatever the
collaborators answer, one `Start` dispatches at most once. -/
theorem Start_dispatch_failure (pb : clusterpb.Enums) (dispatch : Dispatch)
    (cluster : Cluster) (id : Nat) (req : DropTableRequest)
    (onSucceeded : List Effect → TableInfo → Option GoError)
    (onFailed : List Effect → Option GoError → Option GoError)
    (table : Table) (result : DropTableResult) (shard : Shard) (leader : Leader)
    (err : GoError)
    (hget : cluster.GetTable [Effect.updateState State.StateRunning]
      req.SchemaName req.Name = (table, true, none))
    (hdrop : cluster.DropTable
      [Effect.updateState State.StateRunning, Effect.GetTable req.SchemaName req.Name]
      req.SchemaName req.Name = (result, none))
    (hshard : cluster.GetShardByID
      [Effect.updateState State.StateRunning, Effect.GetTable req.SchemaName req.Name,
        Effect.DropTable req.SchemaName req.Name] table.ShardID = (shard, none))
    (hleader : shard.GetLeader = some leader)
    (hdispatch : dispatch.DropTableOnShard
      [Effect.updateState State.StateRunning, Effect.GetTable req.SchemaName req.Name,
        Effect.DropTable req.SchemaName req.Name, Effect.GetShardByID table.ShardID]
      leader.Node
      { UpdateShardInfo :=
          { CurrShardInfo :=
              { ID := result.ShardVersionUpdate.ShardID
                Role := pb.ShardRole_LEADER
                Version := result.ShardVersionUpdate.CurrVersion }
            PrevVersion := result.ShardVersionUpdate.PrevVersion }
        TableInfo :=
          { ID := table.ID, Name := table.Name, SchemaID := table.SchemaID,
            SchemaName := table.SchemaName } } = some err) :
    ((NewDropTableProcedure dispatch cluster id req onSucceeded onFailed).Start pb []).1 =
      some (GoError.WithMessage (GoError.WithMessage err "dispatch drop table on shard")
        "send eventDropTablePrepare") ∧
    ((NewDropTableProcedure dispatch cluster id req onSucceeded onFailed).Start pb []).2.1.State =
      State.StateFailed ∧
    (dispatches
      ((NewDropTableProcedure dispatch cluster id req onSucceeded onFailed).Start
        pb []).2.2).length = 1 ∧
    ∀ (dispatch' : Dispatch) (cluster' : Cluster),
      (dispatches
        ((NewDropTableProcedure dispatch' cluster' id req onSucceeded onFailed).Start
          pb []).2.2).length ≤ 1 := by
  have hprep := prepared_found pb
    (NewDropTableProcedure dispatch cluster id req onSucceeded onFailed) table result shard leader
    hget hdrop hshard hleader
  simp only [NewDropTableProcedure] at hprep hdispatch
  refine ⟨?_, ?_, ?_, fun dispatch' cluster' =>
    Start_dispatches_le_one pb dispatch' cluster' id req onSucceeded onFailed⟩
  · rw [Start_begin pb _ [] rfl]
    simp only [NewDropTableProcedure]
    rw [hprep, hdispatch]
    rfl
  · rw [Start_begin pb _ [] rfl]
    simp only [NewDropTableProcedure]
    rw [hprep, hdispatch]
    rfl
  · rw [Start_begin pb _ [] rfl]
    simp only [NewDropTableProcedure]
    rw [hprep, hdispatch]
    dsimp only [FsmEvent.Cancel, FsmEvent.fresh]
    split <;> simp [dispatches]

/-- C10 (witness): `exampleTable` on `clusterWithTable` with the dispatcher
that fails once. -/
theorem Start_dispatch_failure_witness :
    ((exampleProcedure dispatchFailsOnce clusterWithTable).Start
        clusterpb.Enums.declared []).1 =
      some (GoError.WithMessage
        (GoError.WithMessage (GoError.collaborator "NetworkError")
          "dispatch drop table on shard")
        "send eventDropTablePrepare") ∧
    ((exampleProcedure dispatchFailsOnce clusterWithTable).Start
        clusterpb.Enums.declared []).2.1.State = State.StateFailed ∧
    (dispatches ((exampleProcedure dispatchFailsOnce clusterWithTable).Start
        clusterpb.Enums.declared []).2.2).length = 1 ∧
    ∀ (dispatch' : Dispatch) (cluster' : Cluster),
      (dispatches
        ((NewDropTableProcedure dispatch' cluster' 1 exampleRequest (fun _ _ => none)
          (fun _ _ => none)).Start clusterpb.Enums.declared []).2.2).length ≤ 1 :=
  Start_dispatch_failure clusterpb.Enums.declared dispatchFailsOnce clusterWithTable 1
    exampleRequest (fun _ _ => none) (fun _ _ => none) exampleTable
    { ShardVersionUpdate := { ShardID := 7, CurrVersion := 4, PrevVersion := 3 } }
    { GetLeader := some { Node := "node0" } } { Node := "node0" }
    (GoError.collaborator "NetworkError") rfl rfl rfl rfl rfl

/-- C7 (witness): `exampleTable` on `clusterWithTable`: one dispatch, to
`node0`, of shard 7 going from version 3 to 4; shard 7 is the only shard
looked up. -/
theorem Start_dispatches_to_leader_witness :
    dispatches
        ((exampleProcedure dispatchOk clusterWithTable).Start clusterpb.Enums.declared []).2.2 =
      [("node0", exampleDispatchRequest clusterpb.Enums.declared)] ∧
    (∀ shardID, Effect.GetShardByID shardID ∈
        ((exampleProcedure dispatchOk clusterWithTable).Start clusterpb.Enums.declared []).2.2 ↔
      shardID = 7) ∧
    ((7 : Nat) = 7 →
      ∀ shardID, Effect.GetShardByID shardID ∈
          ((exampleProcedure dispatchOk clusterWithTable).Start clusterpb.Enums.declared []).2.2 ↔
        shardID = 7) :=
  Start_dispatches_to_leader clusterpb.Enums.declared dispatchOk clusterWithTable 1
    exampleRequest (fun _ _ => none) (fun _ _ => none) exampleTable
    { ShardVersionUpdate := { ShardID := 7, CurrVersion := 4, PrevVersion := 3 } }
    { GetLeader := some { Node := "node0" } } { Node := "node0" } rfl rfl rfl rfl

/-- C6 (witness): the table `t` on a cluster that does not have it. -/
theorem Start_absent_table_witness :
    clusterWithoutTable.GetTable [Effect.updateState State.StateRunning]
        exampleRequest.SchemaName exampleRequest.Name =
      ({ ShardID := 0, ID := 0, Name := "", SchemaID := 0, SchemaName := "",
         Info := { ID := 0, Name := "", SchemaID := 0, SchemaName := "" } }, false, none) ∧
    ((exampleProcedure dispatchOk clusterWithoutTable).Start clusterpb.Enums.declared []).1 =
      none ∧
    ((exampleProcedure dispatchOk clusterWithoutTable).Start
      clusterpb.Enums.declared []).2.1.State = State.StateFinished ∧
    (∀ schemaName name, Effect.DropTable schemaName name ∉
      ((exampleProcedure dispatchOk clusterWithoutTable).Start
        clusterpb.Enums.declared []).2.2) ∧
    dispatches
      ((exampleProcedure dispatchOk clusterWithoutTable).Start
        clusterpb.Enums.declared []).2.2 = [] ∧
    Effect.log "warn" "drop non-existing table" ∈
      ((exampleProcedure dispatchOk clusterWithoutTable).Start
        clusterpb.Enums.declared []).2.2 ∧
    lifecycleCalls State.StateInit
      ((exampleProcedure dispatchOk clusterWithoutTable).Start
        clusterpb.Enums.declared []).2.2 =
      [(Effect.onSucceeded { ID := 0, Name := "", SchemaID := 0, SchemaName := "" },
        State.StateRunning)] :=
  ⟨rfl, Start_absent_table clusterpb.Enums.declared dispatchOk clusterWithoutTable 1
    exampleRequest (fun _ _ => none) (fun _ _ => none)
    { ShardID := 0, ID := 0, Name := "", SchemaID := 0, SchemaName := "",
      Info := { ID := 0, Name := "", SchemaID := 0, SchemaName := "" } } rfl⟩

/-- C8 (counterexample): when `onSucceeded` is invoked for a table the
cluster does not have, and when `onFailed` is invoked after a failed
dispatch, `State()` returns `StateRunning`, not the terminal state. -/
theorem lifecycleCalls_example :
    lifecycleCalls State.StateInit
        ((exampleProcedure dispatchOk clusterWithoutTable).Start
          clusterpb.Enums.declared []).2.2 =
      [(Effect.onSucceeded { ID := 0, Name := "", SchemaID := 0, SchemaName := "" },
        State.StateRunning)] ∧
    lifecycleCalls State.StateInit
        ((exampleProcedure dispatchFailsOnce clusterWithTable).Start
          clusterpb.Enums.declared []).2.2 =
      [(Effect.onFailed none, State.StateRunning)] := by
  decide

/-- C9 (counterexample): `Start` then `Cancel` on a procedure for a table the
cluster does not have: the state goes from Finished to Cancelled, which is no
edge of the generic machine. -/
theorem run_Start_Cancel_example :
    stateChanges State.StateInit
        (run clusterpb.Enums.declared [Call.Start, Call.Cancel]
          (exampleProcedure dispatchOk clusterWithoutTable, [])).2 =
      [(State.StateInit, State.StateRunning), (State.StateRunning, State.StateFinished),
        (State.StateFinished, State.StateCancelled)] ∧
    genericEdge State.StateFinished State.StateCancelled = false := by
  decide

/-- C10 (counterexample): the dispatcher fails once and would succeed on a
second call; `Start` dispatches once, returns an error and ends as
`StateFailed`. -/
theorem Start_dispatchFailsOnce_example :
    ((exampleProcedure dispatchFailsOnce clusterWithTable).Start
        clusterpb.Enums.declared []).1 =
      some (GoError.WithMessage
        (GoError.WithMessage (GoError.collaborator "NetworkError")
          "dispatch drop table on shard")
        "send eventDropTablePrepare") ∧
    ((exampleProcedure dispatchFailsOnce clusterWithTable).Start
        clusterpb.Enums.declared []).2.1.State = State.StateFailed ∧
    dispatches ((exampleProcedure dispatchFailsOnce clusterWithTable).Start
        clusterpb.Enums.declared []).2.2 =
      [("node0", exampleDispatchRequest clusterpb.Enums.declared)] ∧
    dispatchFailsOnce.DropTableOnShard
        ((exampleProcedure dispatchFailsOnce clusterWithTable).Start
          clusterpb.Enums.declared []).2.2
        "node0" (exampleDispatchRequest clusterpb.Enums.declared) = none := by
  decide

/-- The prepare callback when the table is found and dropped and its shard
has no leader: the event is cancelled with `ErrShardLeaderNotFound` after the
three cluster calls. -/
theorem prepared_no_leader (pb : clusterpb.Enums) (p : DropTableProcedure) (table : Table)
    (result : DropTableResult) (shard : Shard)
    (hget : p.cluster.GetTable [Effect.updateState State.StateRunning]
      p.req.SchemaName p.req.Name = (table, true, none))
    (hdrop : p.cluster.DropTable
      [Effect.updateState State.StateRunning, Effect.GetTable p.req.SchemaName p.req.Name]
      p.req.SchemaName p.req.Name = (result, none))
    (hshard : p.cluster.GetShardByID
      [Effect.updateState State.StateRunning, Effect.GetTable p.req.SchemaName p.req.Name,
        Effect.DropTable p.req.SchemaName p.req.Name] table.ShardID = (shard, none))
    (hleader : shard.GetLeader = none) :
    p.prepared pb [] =
      ((FsmEvent.fresh eventDropTablePrepare stateDropTableBegin stateDropTableWaiting).Cancel
          (GoError.WithMessage GoError.ErrShardLeaderNotFound "can\x27t find leader"),
        p.request,
        [Effect.updateState State.StateRunning, Effect.GetTable p.req.SchemaName p.req.Name,
          Effect.DropTable p.req.SchemaName p.req.Name, Effect.GetShardByID table.ShardID,
          Effect.log "error" "can\x27t find leader"]) := by
  simp only [DropTableProcedure.prepared, dropTablePrepareCallback, DropTableProcedure.request,
    List.nil_append, List.singleton_append, List.cons_append, hget, hdrop, hshard, hleader,
    cancelEventWithLog]
  simp only [Bool.not_true, Bool.false_eq_true, if_false]

/-- C20: when the table is found and dropped and its shard has no leader,
`Start` returns an error whose cause is `ErrShardLeaderNotFound` and the
state ends as `StateFailed`; nothing is dispatched, and the calls made on the
cluster are `GetTable`, `DropTable` and `GetShardByID`, in that order and
nothing after: the removal is not undone. -/
theorem Start_missing_leader (pb : clusterpb.Enums) (dispatch : Dispatch)
    (cluster : Cluster) (id : Nat) (req : DropTableRequest)
    (onSucceeded : List Effect → TableInfo → Option GoError)
    (onFailed : List Effect → Option GoError → Option GoError)
    (table : Table) (result : DropTableResult) (shard : Shard)
    (hget : cluster.GetTable [Effect.updateState State.StateRunning]
      req.SchemaName req.Name = (table, true, none))
    (hdrop : cluster.DropTable
      [Effect.updateState State.StateRunning, Effect.GetTable req.SchemaName req.Name]
      req.SchemaName req.Name = (result, none))
    (hshard : cluster.GetShardByID
      [Effect.updateState State.StateRunning, Effect.GetTable req.SchemaName req.Name,
        Effect.DropTable req.SchemaName req.Name] table.ShardID = (shard, none))
    (hleader : shard.GetLeader = none) :
    (∃ err,
      ((NewDropTableProcedure dispatch cluster id req onSucceeded onFailed).Start pb []).1 =
        some err ∧ err.Cause = GoError.ErrShardLeaderNotFound) ∧
    ((NewDropTableProcedure dispatch cluster id req onSucceeded onFailed).Start pb []).2.1.State =
      State.StateFailed ∧
    dispatches
      ((NewDropTableProcedure dispatch cluster id req onSucceeded onFailed).Start pb []).2.2 =
        [] ∧
    ((NewDropTableProcedure dispatch cluster id req onSucceeded onFailed).Start
        pb []).2.2.filter Effect.isClusterCall =
      [Effect.GetTable req.SchemaName req.Name, Effect.DropTable req.SchemaName req.Name,
        Effect.GetShardByID table.ShardID] := by
  have hprep := prepared_no_leader pb
    (NewDropTableProcedure dispatch cluster id req onSucceeded onFailed) table result shard
    hget hdrop hshard hleader
  simp only [NewDropTableProcedure] at hprep
  rw [Start_begin pb _ [] rfl]
  simp only [NewDropTableProcedure]
  rw [hprep]
  dsimp only [FsmEvent.Cancel, FsmEvent.fresh]
  refine ⟨⟨_, rfl, rfl⟩, rfl, ?_, ?_⟩
  · split <;> simp [dispatches]
  · split <;> simp [Effect.isClusterCall]

/-- C20 (witness): `exampleTable` on the cluster whose shard has no leader. -/
theorem Start_missing_leader_witness :
    (∃ err,
      ((exampleProcedure dispatchOk clusterWithoutLeader).Start clusterpb.Enums.declared []).1 =
        some err ∧ err.Cause = GoError.ErrShardLeaderNotFound) ∧
    ((exampleProcedure dispatchOk clusterWithoutLeader).Start
        clusterpb.Enums.declared []).2.1.State = State.StateFailed ∧
    dispatches
      ((exampleProcedure dispatchOk clusterWithoutLeader).Start
        clusterpb.Enums.declared []).2.2 = [] ∧
    ((exampleProcedure dispatchOk clusterWithoutLeader).Start
        clusterpb.Enums.declared []).2.2.filter Effect.isClusterCall =
      [Effect.GetTable "s" "t", Effect.DropTable "s" "t", Effect.GetShardByID 7] :=
  Start_missing_leader clusterpb.Enums.declared dispatchOk clusterWithoutLeader 1
    exampleRequest (fun _ _ => none) (fun _ _ => none) exampleTable
    { ShardVersionUpdate := { ShardID := 7, CurrVersion := 4, PrevVersion := 3 } }
    { GetLeader := none } rfl rfl rfl rfl

theorem countP_isOnSucceeded_of_inner (mid : List Effect) (h : ∀ e ∈ mid, e.inner = true) :
    mid.countP Effect.isOnSucceeded = 0 := by
  rw [List.countP_eq_zero]
  intro e he
  have := h e he
  cases e <;> simp_all [Effect.inner, Effect.isOnSucceeded]

theorem countP_isOnFailed_of_inner (mid : List Effect) (h : ∀ e ∈ mid, e.inner = true) :
    mid.countP Effect.isOnFailed = 0 := by
  rw [List.countP_eq_zero]
  intro e he
  have := h e he
  cases e <;> simp_all [Effect.inner, Effect.isOnFailed]

/-- C21: every `Start` on a fresh procedure invokes exactly one lifecycle
callback, once, in agreement with its result and the final state: either it
returns nil, `onSucceeded` was called once, `onFailed` never, and the state is
`StateFinished`; or it returns an error, `onFailed` was called once,
`onSucceeded` never, and the state is `StateFailed`. -/
theorem Start_one_callback (pb : clusterpb.Enums) (dispatch : Dispatch)
    (cluster : Cluster) (id : Nat) (req : DropTableRequest)
    (onSucceeded : List Effect → TableInfo → Option GoError)
    (onFailed : List Effect → Option GoError → Option GoError) :
    (((NewDropTableProcedure dispatch cluster id req onSucceeded onFailed).Start pb []).1 = none ∧
      ((NewDropTableProcedure dispatch cluster id req onSucceeded onFailed).Start
        pb []).2.2.countP Effect.isOnSucceeded = 1 ∧
      ((NewDropTableProcedure dispatch cluster id req onSucceeded onFailed).Start
        pb []).2.2.countP Effect.isOnFailed = 0 ∧
      ((NewDropTableProcedure dispatch cluster id req onSucceeded onFailed).Start pb []).2.1.State =
        State.StateFinished) ∨
    ((∃ err,
        ((NewDropTableProcedure dispatch cluster id req onSucceeded onFailed).Start pb []).1 =
          some err) ∧
      ((NewDropTableProcedure dispatch cluster id req onSucceeded onFailed).Start
        pb []).2.2.countP Effect.isOnFailed = 1 ∧
      ((NewDropTableProcedure dispatch cluster id req onSucceeded onFailed).Start
        pb []).2.2.countP Effect.isOnSucceeded = 0 ∧
      ((NewDropTableProcedure dispatch cluster id req onSucceeded onFailed).Start pb []).2.1.State =
        State.StateFailed) := by
  obtain ⟨mid, h1, h2, _⟩ := prepared_trace pb
    (NewDropTableProcedure dispatch cluster id req onSucceeded onFailed)
  have hs := countP_isOnSucceeded_of_inner mid h2
  have hf := countP_isOnFailed_of_inner mid h2
  rw [Start_begin pb _ [] rfl]
  generalize DropTableProcedure.prepared pb
    (NewDropTableProcedure dispatch cluster id req onSucceeded onFailed) [] = P at h1
  obtain ⟨ev, rq, tr⟩ := P
  simp only at h1
  subst h1
  dsimp only
  cases ev.Err with
  | none =>
    left
    dsimp only
    refine ⟨rfl, ?_, ?_, rfl⟩
    · split <;> simp [List.countP_cons, List.countP_append, hs, Effect.isOnSucceeded]
    · split <;> simp [List.countP_cons, List.countP_append, hf, Effect.isOnFailed]
  | some err =>
    right
    dsimp only
    refine ⟨⟨_, rfl⟩, ?_, ?_, rfl⟩
    · split <;> simp [List.countP_cons, List.countP_append, hf, Effect.isOnFailed]
    · split <;> simp [List.countP_cons, List.countP_append, hs, Effect.isOnSucceeded]

/-- C22 (the code where the prepare step fails): whichever step fails,
`GetTable`, `DropTable`, `GetShardByID`, the missing leader or the dispatch,
`Start` returns an error wrapping the cause and `onFailed` is called once,
with a nil error. -/
theorem onFailed_receives_nil :
    (((exampleProcedure dispatchOk clusterGetTableFails).Start clusterpb.Enums.declared []).1.map
        GoError.Cause = some (GoError.collaborator "get table") ∧
      onFailedArgs
        ((exampleProcedure dispatchOk clusterGetTableFails).Start
          clusterpb.Enums.declared []).2.2 = [none]) ∧
    (((exampleProcedure dispatchOk clusterDropTableFails).Start clusterpb.Enums.declared []).1.map
        GoError.Cause = some (GoError.collaborator "drop table") ∧
      onFailedArgs
        ((exampleProcedure dispatchOk clusterDropTableFails).Start
          clusterpb.Enums.declared []).2.2 = [none]) ∧
    (((exampleProcedure dispatchOk clusterGetShardFails).Start clusterpb.Enums.declared []).1.map
        GoError.Cause = some (GoError.collaborator "get shard") ∧
      onFailedArgs
        ((exampleProcedure dispatchOk clusterGetShardFails).Start
          clusterpb.Enums.declared []).2.2 = [none]) ∧
    (((exampleProcedure dispatchOk clusterWithoutLeader).Start clusterpb.Enums.declared []).1.map
        GoError.Cause = some GoError.ErrShardLeaderNotFound ∧
      onFailedArgs
        ((exampleProcedure dispatchOk clusterWithoutLeader).Start
          clusterpb.Enums.declared []).2.2 = [none]) ∧
    (((exampleProcedure dispatchFailsOnce clusterWithTable).Start clusterpb.Enums.declared []).1.map
        GoError.Cause = some (GoError.collaborator "NetworkError") ∧
      onFailedArgs
        ((exampleProcedure dispatchFailsOnce clusterWithTable).Start
          clusterpb.Enums.declared []).2.2 = [none]) := by
  decide

theorem onFailedArgs_append (a b : List Effect) :
    onFailedArgs (a ++ b) = onFailedArgs a ++ onFailedArgs b := by
  induction a with
  | nil => simp [onFailedArgs]
  | cons e rest ih => cases e <;> simp [onFailedArgs, ih]

theorem onFailedArgs_of_inner (mid : List Effect) (h : ∀ e ∈ mid, e.inner = true) :
    onFailedArgs mid = [] := by
  induction mid with
  | nil => rfl
  | cons e rest ih =>
    have he := h e (by simp)
    have hr := ih (fun x hx => h x (by simp [hx]))
    cases e <;> simp_all [onFailedArgs, Effect.inner]

/-- Whatever the collaborators answer, `onFailed` is never handed an error by
a `Start` on a fresh procedure: each of its calls receives nil. -/
theorem onFailedArgs_Start (pb : clusterpb.Enums) (dispatch : Dispatch)
    (cluster : Cluster) (id : Nat) (req : DropTableRequest)
    (onSucceeded : List Effect → TableInfo → Option GoError)
    (onFailed : List Effect → Option GoError → Option GoError) :
    onFailedArgs
        ((NewDropTableProcedure dispatch cluster id req onSucceeded onFailed).Start pb []).2.2 =
      if ((NewDropTableProcedure dispatch cluster id req onSucceeded onFailed).Start pb []).1 =
          none then [] else [none] := by
  obtain ⟨mid, h1, h2, _⟩ := prepared_trace pb
    (NewDropTableProcedure dispatch cluster id req onSucceeded onFailed)
  have hf := onFailedArgs_of_inner mid h2
  rw [Start_begin pb _ [] rfl]
  generalize DropTableProcedure.prepared pb
    (NewDropTableProcedure dispatch cluster id req onSucceeded onFailed) [] = P at h1
  obtain ⟨ev, rq, tr⟩ := P
  simp only at h1
  subst h1
  dsimp only
  cases ev.Err with
  | none =>
    dsimp only
    split <;> simp [onFailedArgs, onFailedArgs_append, hf]
  | some err =>
    dsimp only
    split <;> simp [onFailedArgs, onFailedArgs_append, hf]

end procedure

/-! ## The node picker -/

namespace nodepicker

theorem char_eq_of_toNat_eq (a b : Char) (h : a.toNat = b.toNat) : a = b := by
  apply Char.eq_of_val_eq
  apply UInt32.eq_of_val_eq
  exact Fin.ext h

theorem leChars_total (a b : List Char) : leChars a b = true ∨ leChars b a = true := by
  induction a generalizing b with
  | nil => simp [leChars]
  | cons x xs ih =>
    cases b with
    | nil => simp [leChars]
    | cons y ys =>
      simp only [leChars, Bool.or_eq_true, decide_eq_true_eq, Bool.and_eq_true, beq_iff_eq]
      rcases Nat.lt_trichotomy x.toNat y.toNat with h | h | h
      · exact Or.inl (Or.inl h)
      · rcases ih ys with h1 | h1
        · exact Or.inl (Or.inr ⟨h, h1⟩)
        · exact Or.inr (Or.inr ⟨h.symm, h1⟩)
      · exact Or.inr (Or.inl h)

theorem leChars_trans (a b c : List Char) (hab : leChars a b = true) (hbc : leChars b c = true) :
    leChars a c = true := by
  induction a generalizing b c with
  | nil => simp [leChars]
  | cons x xs ih =>
    cases b with
    | nil => simp [leChars] at hab
    | cons y ys =>
      cases c with
      | nil => simp [leChars] at hbc
      | cons z zs =>
        simp only [leChars, Bool.or_eq_true, decide_eq_true_eq, Bool.and_eq_true,
          beq_iff_eq] at hab hbc ⊢
        rcases hab with h1 | ⟨h1, h2⟩
        · rcases hbc with h3 | ⟨h3, _⟩
          · exact Or.inl (by omega)
          · exact Or.inl (by omega)
        · rcases hbc with h3 | ⟨h3, h4⟩
          · exact Or.inl (by omega)
          · exact Or.inr ⟨by omega, ih ys zs h2 h4⟩

theorem leChars_antisymm (a b : List Char) (hab : leChars a b = true) (hba : leChars b a = true) :
    a = b := by
  induction a generalizing b with
  | nil =>
    cases b with
    | nil => rfl
    | cons y ys => simp [leChars] at hba
  | cons x xs ih =>
    cases b with
    | nil => simp [leChars] at hab
    | cons y ys =>
      simp only [leChars, Bool.or_eq_true, decide_eq_true_eq, Bool.and_eq_true,
        beq_iff_eq] at hab hba
      rcases hab with h1 | ⟨h1, h2⟩
      · rcases hba with h3 | ⟨h3, _⟩ <;> omega
      · rcases hba with h3 | ⟨_, h4⟩
        · omega
        · rw [char_eq_of_toNat_eq x y h1, ih ys h2 h4]

theorem leRing_total (a b : Nat × String) : leRing a b = true ∨ leRing b a = true := by
  simp only [leRing, Bool.or_eq_true, decide_eq_true_eq, Bool.and_eq_true, beq_iff_eq]
  rcases Nat.lt_trichotomy a.1 b.1 with h | h | h
  · exact Or.inl (Or.inl h)
  · rcases leChars_total a.2.data b.2.data with h1 | h1
    · exact Or.inl (Or.inr ⟨h, h1⟩)
    · exact Or.inr (Or.inr ⟨h.symm, h1⟩)
  · exact Or.inr (Or.inl h)

theorem leRing_trans (a b c : Nat × String) (hab : leRing a b = true) (hbc : leRing b c = true) :
    leRing a c = true := by
  simp only [leRing, Bool.or_eq_true, decide_eq_true_eq, Bool.and_eq_true,
    beq_iff_eq] at hab hbc ⊢
  rcases hab with h1 | ⟨h1, h2⟩
  · rcases hbc with h3 | ⟨h3, _⟩
    · exact Or.inl (by omega)
    · exact Or.inl (by omega)
  · rcases hbc with h3 | ⟨h3, h4⟩
    · exact Or.inl (by omega)
    · exact Or.inr ⟨by omega, leChars_trans _ _ _ h2 h4⟩

theorem leRing_antisymm (a b : Nat × String) (hab : leRing a b = true) (hba : leRing b a = true) :
    a = b := by
  simp only [leRing, Bool.or_eq_true, decide_eq_true_eq, Bool.and_eq_true,
    beq_iff_eq] at hab hba
  rcases hab with h1 | ⟨h1, h2⟩
  · rcases hba with h3 | ⟨h3, _⟩ <;> omega
  · rcases hba with h3 | ⟨_, h4⟩
    · omega
    · have hd : a.2.data = b.2.data := leChars_antisymm _ _ h2 h4
      have hs : a.2 = b.2 := String.ext hd
      exact Prod.ext h1 hs

theorem ring_perm (h : Hashing) (live : List RegisteredNode) :
    (ring h live).Perm (live.flatMap (fun node => virtualPoints h node.Node.Name)) :=
  List.perm_insertionSort _ _

theorem ring_sorted (h : Hashing) (live : List RegisteredNode) :
    List.Sorted (fun a b => leRing a b = true) (ring h live) := by
  haveI : IsTotal (Nat × String) (fun a b => leRing a b = true) := ⟨leRing_total⟩
  haveI : IsTrans (Nat × String) (fun a b => leRing a b = true) := ⟨leRing_trans⟩
  exact List.sorted_insertionSort _ _

theorem flatMap_names (h : Hashing) (live : List RegisteredNode) :
    live.flatMap (fun node => virtualPoints h node.Node.Name) =
      (live.map (fun node => node.Node.Name)).flatMap (virtualPoints h) := by
  induction live with
  | nil => rfl
  | cons node rest ih => simp [List.flatMap_cons, ih]

/-- The ring depends on the live nodes through their names only, and not on
the order in which they are listed. -/
theorem ring_eq_of_perm (h : Hashing) (live₁ live₂ : List RegisteredNode)
    (hp : (live₁.map (fun node => node.Node.Name)).Perm
      (live₂.map (fun node => node.Node.Name))) :
    ring h live₁ = ring h live₂ := by
  haveI : IsAntisymm (Nat × String) (fun a b => leRing a b = true) := ⟨leRing_antisymm⟩
  apply List.eq_of_perm_of_sorted (r := fun a b => leRing a b = true) _
    (ring_sorted h live₁) (ring_sorted h live₂)
  refine (ring_perm h live₁).trans (List.Perm.trans ?_ (ring_perm h live₂).symm)
  rw [flatMap_names, flatMap_names]
  exact List.Perm.flatMap_right _ hp

/-- The names on the ring are the names of the live nodes. -/
theorem mem_ring (h : Hashing) (live : List RegisteredNode) (e : Nat × String) :
    e ∈ ring h live → ∃ node ∈ live, node.Node.Name = e.2 := by
  intro he
  have := (ring_perm h live).subset he
  simp only [List.mem_flatMap, virtualPoints, List.mem_map, List.mem_range] at this
  obtain ⟨node, hn, i, _, hi⟩ := this
  exact ⟨node, hn, by rw [← hi]⟩

/-- Every live node has a point on the ring. -/
theorem exists_mem_ring (h : Hashing) (live : List RegisteredNode) (node : RegisteredNode)
    (hn : node ∈ live) : ∃ e ∈ ring h live, e.2 = node.Node.Name := by
  refine ⟨(h.hashNode node.Node.Name 0, node.Node.Name), ?_, rfl⟩
  apply (ring_perm h live).symm.subset
  simp only [List.mem_flatMap, virtualPoints, List.mem_map, List.mem_range]
  exact ⟨node, hn, 0, by have := h.points_range.1; omega, rfl⟩

theorem clockwise_perm (ring : List (Nat × String)) (p : Nat) :
    (clockwise ring p).Perm ring := by
  unfold clockwise
  have h2 : (ring.filter (fun e => decide (e.1 < p))) =
      ring.filter (fun e => !decide (p ≤ e.1)) := by
    congr 1
    funext e
    by_cases hpe : p ≤ e.1
    · simp [hpe, Nat.not_lt.mpr hpe]
    · simp [hpe, Nat.lt_of_not_le hpe]
  rw [h2]
  exact List.filter_append_perm _ _

/-- The mapping holds choices that were made, in the order in which they were
made. -/
theorem lastWrites_sublist {α : Type} (l : List (Nat × α)) : (lastWrites l).Sublist l := by
  induction l with
  | nil => exact List.Sublist.slnil
  | cons e rest ih =>
    unfold lastWrites
    split
    · exact ih.cons e
    · exact ih.cons₂ e

/-- The keys of the mapping are the shard ids written, each once. -/
theorem lastWrites_keys {α : Type} (l : List (Nat × α)) :
    (lastWrites l).map Prod.fst = (l.map Prod.fst).dedup := by
  induction l with
  | nil => rfl
  | cons e rest ih =>
    unfold lastWrites
    split
    · rename_i hmem
      rw [ih, List.map_cons, List.dedup_cons_of_mem hmem]
    · rename_i hmem
      rw [List.map_cons, ih, List.map_cons, List.dedup_cons_of_not_mem hmem]

/-- The mapping that writes the same value under every shard id of a list. -/
theorem lastWrites_const {α : Type} (shards : List Nat) (v : α) :
    lastWrites (shards.map (fun s => (s, v))) = shards.dedup.map (fun s => (s, v)) := by
  induction shards with
  | nil => rfl
  | cons s rest ih =>
    have hfst : (rest.map (fun s => (s, v))).map Prod.fst = rest := by
      simp [List.map_map, Function.comp_def]
    rw [List.map_cons]
    unfold lastWrites
    by_cases hmem : s ∈ rest
    · rw [if_pos (by rw [hfst]; exact hmem), ih, List.dedup_cons_of_mem hmem]
    · rw [if_neg (by rw [hfst]; exact hmem), ih, List.dedup_cons_of_not_mem hmem, List.map_cons]

theorem accepted_lastWrites_le (names : List (Nat × String)) (name : String) :
    accepted (lastWrites names) name ≤ accepted names name :=
  (lastWrites_sublist names).countP_le _

theorem accepted_append (acc : List (Nat × String)) (s : Nat) (chosen name : String) :
    accepted (acc ++ [(s, chosen)]) name = accepted acc name + if chosen = name then 1 else 0 := by
  unfold accepted
  rw [List.countP_append]
  by_cases hc : chosen = name <;> simp [List.countP_cons, hc]

theorem accepted_le_length (acc : List (Nat × String)) (name : String) :
    accepted acc name ≤ acc.length :=
  List.countP_le_length _

/-- What a successful assignment looks like: the shards are added in order to
what was assigned before, every name added is on the ring, and no node goes
over the cap. -/
theorem assignShards_some (h : Hashing) (ring : List (Nat × String)) (cap : Nat)
    (shards : List Nat) (acc r : List (Nat × String))
    (hr : assignShards h ring cap shards acc = some r) :
    r.map Prod.fst = acc.map Prod.fst ++ shards ∧
    (∀ e ∈ r, e ∈ acc ∨ ∃ p ∈ ring, p.2 = e.2) ∧
    ((∀ name, accepted acc name ≤ cap) → ∀ name, accepted r name ≤ cap) := by
  induction shards generalizing acc with
  | nil =>
    simp only [assignShards, Option.some.injEq] at hr
    subst hr
    exact ⟨by simp, fun e he => Or.inl he, fun hacc => hacc⟩
  | cons s rest ih =>
    unfold assignShards at hr
    cases hf : (clockwise ring (h.hashShard s)).find?
        (fun e => decide (accepted acc e.2 < cap)) with
    | none => simp [hf] at hr
    | some e =>
      simp only [hf] at hr
      obtain ⟨h1, h2, h3⟩ := ih (acc ++ [(s, e.2)]) hr
      have hmem : e ∈ ring := (clockwise_perm ring _).subset (List.mem_of_find?_eq_some hf)
      have hlt : accepted acc e.2 < cap := by
        have := List.find?_some hf
        simpa using this
      refine ⟨by simp [h1], ?_, ?_⟩
      · intro x hx
        rcases h2 x hx with hx1 | hx1
        · rcases List.mem_append.mp hx1 with hx2 | hx2
          · exact Or.inl hx2
          · simp only [List.mem_singleton] at hx2
            exact Or.inr ⟨e, hmem, by rw [hx2]⟩
        · exact Or.inr hx1
      · intro hacc
        apply h3
        intro name
        rw [accepted_append]
        by_cases hc : e.2 = name
        · simp only [hc, if_true]
          rw [hc] at hlt
          omega
        · simp only [hc, if_false]
          exact hacc name

theorem accepted_shardNames (m : List (Nat × RegisteredNode)) (name : String) :
    accepted (shardNames m) name = load m name := by
  unfold accepted shardNames load
  rw [List.countP_map]
  rfl

/-- Attaching the descriptors keeps the shards and the names, and every
descriptor attached is a live node. -/
theorem attachNodes_some (live : List RegisteredNode) (names : List (Nat × String))
    (entries : List (Nat × RegisteredNode)) (hr : attachNodes live names = some entries) :
    shardNames entries = names ∧ ∀ e ∈ entries, e.2 ∈ live := by
  induction names generalizing entries with
  | nil =>
    simp only [attachNodes, Option.some.injEq] at hr
    subst hr
    exact ⟨rfl, by simp⟩
  | cons x rest ih =>
    obtain ⟨s, name⟩ := x
    unfold attachNodes at hr
    cases hf : live.find? (fun node => decide (node.Node.Name = name)) with
    | none => simp [hf] at hr
    | some node =>
      cases ha : attachNodes live rest with
      | none => simp [hf, ha] at hr
      | some tail =>
        simp only [hf, ha, Option.some.injEq] at hr
        subst hr
        obtain ⟨h1, h2⟩ := ih tail ha
        have hname : node.Node.Name = name := by
          have := List.find?_some hf
          simpa using this
        refine ⟨?_, ?_⟩
        · simp only [shardNames, List.map_cons, List.cons.injEq, Prod.mk.injEq, true_and]
          exact ⟨hname, h1⟩
        · intro e he
          rcases List.mem_cons.mp he with he1 | he1
          · rw [he1]
            exact List.mem_of_find?_eq_some hf
          · exact h2 e he1

/-- Attaching succeeds when every name is the name of a live node. -/
theorem attachNodes_isSome (live : List RegisteredNode) (names : List (Nat × String))
    (hnames : ∀ e ∈ names, ∃ node ∈ live, node.Node.Name = e.2) :
    ∃ entries, attachNodes live names = some entries := by
  induction names with
  | nil => exact ⟨[], rfl⟩
  | cons x rest ih =>
    obtain ⟨s, name⟩ := x
    obtain ⟨tail, ht⟩ := ih (fun e he => hnames e (List.mem_cons_of_mem _ he))
    obtain ⟨node, hn, hname⟩ := hnames (s, name) (List.mem_cons_self _ _)
    cases hf : live.find? (fun node => decide (node.Node.Name = name)) with
    | none =>
      have := List.find?_eq_none.mp hf node hn
      simp at this
      exact absurd hname this
    | some found => exact ⟨(s, found) :: tail, by simp [attachNodes, hf, ht]⟩

/-- A successful pick, taken apart: there is a live node, the shards were all
assigned, as they are listed, and the descriptors attached to the mapping. -/
theorem PickNode_ok (h : Hashing) (now : Int) (config : Config) (shardIDs : List Nat)
    (nodes : List RegisteredNode) (m : List (Nat × RegisteredNode))
    (hm : PickNode h now config shardIDs nodes = Except.ok m) :
    1 ≤ (liveNodes h now nodes).length ∧
    ∃ names, assignShards h (ring h (liveNodes h now nodes))
        (ceilDiv shardIDs.length (liveNodes h now nodes).length) shardIDs [] = some names ∧
      attachNodes (liveNodes h now nodes) (lastWrites names) = some m := by
  unfold PickNode at hm
  dsimp only at hm
  split at hm
  · simp at hm
  · rename_i hlen
    split at hm
    · simp at hm
    · rename_i names hnames
      split at hm
      · simp at hm
      · rename_i entries hentries
        simp only [Except.ok.injEq] at hm
        subst hm
        exact ⟨by omega, names, hnames, hentries⟩

theorem liveNodes_eq_nil_of_expired (h : Hashing) (now : Int) (nodes : List RegisteredNode)
    (hexp : ∀ node ∈ nodes, expired h now node = true) : liveNodes h now nodes = [] := by
  unfold liveNodes
  rw [List.filter_eq_nil_iff]
  intro node hn
  simp [hexp node hn]

/-- C16: the pick fails with `NoAvailableNodes` when no live node is
available: for every configuration and every list of shard ids, when the node
list is empty, and when every node of the list is expired. -/
theorem PickNode_no_live_node (h : Hashing) (now : Int) (config : Config)
    (shardIDs : List Nat) (nodes : List RegisteredNode)
    (hexp : ∀ node ∈ nodes, expired h now node = true) :
    PickNode h now config shardIDs [] = Except.error GoError.NoAvailableNodes ∧
    PickNode h now config shardIDs nodes = Except.error GoError.NoAvailableNodes := by
  refine ⟨?_, ?_⟩
  · simp [PickNode, liveNodes]
  · simp [PickNode, liveNodes_eq_nil_of_expired h now nodes hexp]

/-- C16 (witness): shard 0 on the nodes `0`, `1`, `2` of the test, all last
touched long before the lease threshold. -/
theorem PickNode_no_live_node_witness :
    (∀ node ∈ exampleExpiredNodes, expired exampleHashing exampleNow node = true) ∧
    PickNode exampleHashing exampleNow { NumTotalShards := 10 } [0] [] =
      Except.error GoError.NoAvailableNodes ∧
    PickNode exampleHashing exampleNow { NumTotalShards := 10 } [0] exampleExpiredNodes =
      Except.error GoError.NoAvailableNodes :=
  ⟨by decide,
    PickNode_no_live_node exampleHashing exampleNow { NumTotalShards := 10 } [0]
      exampleExpiredNodes (by decide)⟩

theorem ceilDiv_one (shards : Nat) : ceilDiv shards 1 = shards := by
  simp [ceilDiv]

/-- With every point of the ring named `name` and room left under the cap,
each shard goes to `name`. -/
theorem assignShards_single (h : Hashing) (ring : List (Nat × String)) (cap : Nat)
    (name : String) (hne : ring ≠ []) (hall : ∀ e ∈ ring, e.2 = name)
    (shards : List Nat) (acc : List (Nat × String))
    (hroom : acc.length + shards.length ≤ cap) :
    assignShards h ring cap shards acc = some (acc ++ shards.map (fun s => (s, name))) := by
  induction shards generalizing acc with
  | nil => simp [assignShards]
  | cons s rest ih =>
    unfold assignShards
    have hall' : ∀ e ∈ clockwise ring (h.hashShard s), e.2 = name := fun e he =>
      hall e ((clockwise_perm ring _).subset he)
    have hne' : clockwise ring (h.hashShard s) ≠ [] := by
      intro hnil
      have := (clockwise_perm ring (h.hashShard s)).length_eq
      rw [hnil] at this
      exact hne (List.length_eq_zero.mp this.symm)
    have hlt : accepted acc name < cap := by
      have := accepted_le_length acc name
      simp only [List.length_cons] at hroom
      omega
    cases hf : (clockwise ring (h.hashShard s)).find?
        (fun e => decide (accepted acc e.2 < cap)) with
    | none =>
      obtain ⟨e, he⟩ := List.exists_mem_of_ne_nil _ hne'
      have := List.find?_eq_none.mp hf e he
      rw [hall' e he] at this
      simp [hlt] at this
    | some e =>
      have hname : e.2 = name := hall' e (List.mem_of_find?_eq_some hf)
      have hroom' : (acc ++ [(s, name)]).length + rest.length ≤ cap := by
        simp only [List.length_append, List.length_cons, List.length_nil] at hroom ⊢
        omega
      simp only [hname]
      rw [ih (acc ++ [(s, name)]) hroom']
      simp

theorem attachNodes_single (node : RegisteredNode) (shards : List Nat) :
    attachNodes [node] (shards.map (fun s => (s, node.Node.Name))) =
      some (shards.map (fun s => (s, node))) := by
  induction shards with
  | nil => rfl
  | cons s rest ih => simp [attachNodes, ih]

theorem mem_liveNodes (h : Hashing) (now : Int) (nodes : List RegisteredNode)
    (node : RegisteredNode) :
    node ∈ liveNodes h now nodes ↔ node ∈ nodes ∧ expired h now node = false := by
  simp [liveNodes]

/-- C19: only live nodes receive shards.  After a successful pick every node
of the mapping is a node of the list that is not expired; and when exactly
one node of the list is live the pick succeeds and maps every requested shard
to that node. -/
theorem PickNode_live_only (h : Hashing) (now : Int) (config : Config) (shardIDs : List Nat)
    (nodes : List RegisteredNode) :
    (∀ m, PickNode h now config shardIDs nodes = Except.ok m →
      ∀ e ∈ m, e.2 ∈ nodes ∧ expired h now e.2 = false) ∧
    (∀ node, liveNodes h now nodes = [node] →
      PickNode h now config shardIDs nodes =
          Except.ok (shardIDs.dedup.map (fun s => (s, node))) ∧
        ∀ s ∈ shardIDs, (s, node) ∈ shardIDs.dedup.map (fun s => (s, node))) := by
  refine ⟨?_, ?_⟩
  · intro m hm e he
    obtain ⟨_, names, _, hattach⟩ := PickNode_ok h now config shardIDs nodes m hm
    obtain ⟨_, hlive⟩ := attachNodes_some _ (lastWrites names) m hattach
    exact (mem_liveNodes h now nodes e.2).mp (hlive e he)
  · intro node hlive
    refine ⟨?_, ?_⟩
    · have hne : ring h [node] ≠ [] := by
        obtain ⟨e, he, _⟩ := exists_mem_ring h [node] node (List.mem_singleton.mpr rfl)
        exact List.ne_nil_of_mem he
      have hall : ∀ e ∈ ring h [node], e.2 = node.Node.Name := by
        intro e he
        obtain ⟨n, hn, hname⟩ := mem_ring h [node] e he
        rw [List.mem_singleton.mp hn] at hname
        exact hname.symm
      have hassign := assignShards_single h (ring h [node]) shardIDs.length node.Node.Name
        hne hall shardIDs [] (by simp)
      unfold PickNode
      simp only [hlive, List.length_singleton, Nat.lt_irrefl, if_false, ceilDiv_one, hassign,
        List.nil_append, lastWrites_const, attachNodes_single]
    · intro s hs
      exact List.mem_map.mpr ⟨s, List.mem_dedup.mpr hs, rfl⟩

/-- C19 (witness): nodes `0`, `1`, `2` of which only `1` is live: shard 0
goes to `1`. -/
theorem PickNode_live_only_witness :
    liveNodes exampleHashing exampleNow exampleOneLiveNodes = [exampleNode "1" 1700000000000] ∧
    PickNode exampleHashing exampleNow { NumTotalShards := 10 } [0] exampleOneLiveNodes =
      Except.ok [(0, exampleNode "1" 1700000000000)] ∧
    ∀ s ∈ [0], (s, exampleNode "1" 1700000000000) ∈ [(0, exampleNode "1" 1700000000000)] :=
  ⟨by decide,
    (PickNode_live_only exampleHashing exampleNow { NumTotalShards := 10 } [0]
      exampleOneLiveNodes).2 (exampleNode "1" 1700000000000) (by decide)⟩

/-- The shard-to-name view of a pick is the pick of names: attaching the
descriptors never fails, each chosen name being the name of a live node. -/
theorem PickNode_shardNames (h : Hashing) (now : Int) (config : Config) (shardIDs : List Nat)
    (nodes : List RegisteredNode) :
    Except.map shardNames (PickNode h now config shardIDs nodes) =
      pickNames h (liveNodes h now nodes) shardIDs := by
  unfold PickNode pickNames
  dsimp only
  split
  · rfl
  · cases hassign : assignShards h (ring h (liveNodes h now nodes))
        (ceilDiv shardIDs.length (liveNodes h now nodes).length) shardIDs [] with
    | none => rfl
    | some names =>
      obtain ⟨_, hring, _⟩ := assignShards_some h _ _ _ [] names hassign
      have hlive : ∀ e ∈ lastWrites names,
          ∃ node ∈ liveNodes h now nodes, node.Node.Name = e.2 := by
        intro e he
        rcases hring e ((lastWrites_sublist names).subset he) with hnil | ⟨p, hp, hpe⟩
        · simp at hnil
        · obtain ⟨node, hn, hname⟩ := mem_ring h _ p hp
          exact ⟨node, hn, by rw [hname, hpe]⟩
      obtain ⟨entries, hentries⟩ := attachNodes_isSome _ (lastWrites names) hlive
      obtain ⟨hsn, _⟩ := attachNodes_some _ (lastWrites names) entries hentries
      simp only [hentries, Except.map, hsn]

/-- The pick of names depends on the live nodes through their names only,
and not on the order in which they are listed. -/
theorem pickNames_eq_of_perm (h : Hashing) (live₁ live₂ : List RegisteredNode)
    (shards : List Nat)
    (hnames : (live₁.map (fun node => node.Node.Name)).Perm
      (live₂.map (fun node => node.Node.Name))) :
    pickNames h live₁ shards = pickNames h live₂ shards := by
  have hlen : live₁.length = live₂.length := by
    have := hnames.length_eq
    simpa using this
  unfold pickNames
  rw [ring_eq_of_perm h live₁ live₂ hnames, hlen]

/-- Two lists of nodes with the same nodes and no name twice give the same
node for a name. -/
theorem find?_name_eq_of_perm (live₁ live₂ : List RegisteredNode) (name : String)
    (hperm : live₁.Perm live₂)
    (hnodup : (live₁.map (fun node => node.Node.Name)).Nodup) :
    live₁.find? (fun node => decide (node.Node.Name = name)) =
      live₂.find? (fun node => decide (node.Node.Name = name)) := by
  cases h1 : live₁.find? (fun node => decide (node.Node.Name = name)) with
  | none =>
    symm
    rw [List.find?_eq_none] at h1 ⊢
    intro x hx
    exact h1 x (hperm.symm.subset hx)
  | some a =>
    have ha : a ∈ live₁ := List.mem_of_find?_eq_some h1
    have hpa : a.Node.Name = name := by simpa using List.find?_some h1
    cases h2 : live₂.find? (fun node => decide (node.Node.Name = name)) with
    | none =>
      have := List.find?_eq_none.mp h2 a (hperm.subset ha)
      simp [hpa] at this
    | some b =>
      have hb : b ∈ live₁ := hperm.symm.subset (List.mem_of_find?_eq_some h2)
      have hpb : b.Node.Name = name := by simpa using List.find?_some h2
      have hab : a = b :=
        List.inj_on_of_nodup_map hnodup ha hb (by rw [hpa, hpb])
      rw [hab]

theorem attachNodes_eq_of_perm (live₁ live₂ : List RegisteredNode)
    (names : List (Nat × String)) (hperm : live₁.Perm live₂)
    (hnodup : (live₁.map (fun node => node.Node.Name)).Nodup) :
    attachNodes live₁ names = attachNodes live₂ names := by
  induction names with
  | nil => rfl
  | cons x rest ih =>
    obtain ⟨s, name⟩ := x
    simp only [attachNodes, find?_name_eq_of_perm live₁ live₂ name hperm hnodup, ih]

/-- C18 (counterexample): on the three live nodes the shard ids 0 and 1 listed
as `[0, 1]` put shard 0 on node `2`, listed as `[1, 0]` on node `1`; the same
shard ids with one listed twice put shard 2 on node `1` instead of node `0`;
and with the one live node `0` listed twice the pick of two shards fails,
where it succeeds with the node listed once. -/
theorem PickNode_listing_matters :
    Except.map shardNames
        (PickNode exampleHashing exampleNow { NumTotalShards := 10 } [0, 1] exampleLiveNodes) =
      Except.ok [(0, "2"), (1, "1")] ∧
    Except.map shardNames
        (PickNode exampleHashing exampleNow { NumTotalShards := 10 } [1, 0] exampleLiveNodes) =
      Except.ok [(1, "2"), (0, "1")] ∧
    Except.map shardNames
        (PickNode exampleHashing exampleNow { NumTotalShards := 10 } [0, 1, 2] exampleLiveNodes) =
      Except.ok [(0, "2"), (1, "1"), (2, "0")] ∧
    Except.map shardNames
        (PickNode exampleHashing exampleNow { NumTotalShards := 10 } [0, 0, 1, 2]
          exampleLiveNodes) =
      Except.ok [(0, "2"), (1, "1"), (2, "1")] ∧
    PickNode exampleHashing exampleNow { NumTotalShards := 10 } [0, 1]
        [exampleNode "0" 1700000000000] =
      Except.ok [(0, exampleNode "0" 1700000000000), (1, exampleNode "0" 1700000000000)] ∧
    PickNode exampleHashing exampleNow { NumTotalShards := 10 } [0, 1]
        [exampleNode "0" 1700000000000, exampleNode "0" 1700000000000] =
      Except.error GoError.NoAvailableNodes :=
  ⟨rfl, rfl, rfl, rfl, rfl, rfl⟩

/-- C18 (amended): determinism of placement.  Two picks of the same list of
shard ids whose live nodes have the same names, each as many times, listed in
any order, give the same mapping from shard to node name; and when the live
nodes themselves are the same, with no name twice, the two picks return the
same result. -/
theorem PickNode_deterministic (h : Hashing) (now₁ now₂ : Int) (config₁ config₂ : Config)
    (shards : List Nat) (nodes₁ nodes₂ : List RegisteredNode)
    (hnames : ((liveNodes h now₁ nodes₁).map (fun node => node.Node.Name)).Perm
      ((liveNodes h now₂ nodes₂).map (fun node => node.Node.Name))) :
    Except.map shardNames (PickNode h now₁ config₁ shards nodes₁) =
      Except.map shardNames (PickNode h now₂ config₂ shards nodes₂) ∧
    ((liveNodes h now₁ nodes₁).Perm (liveNodes h now₂ nodes₂) →
      ((liveNodes h now₁ nodes₁).map (fun node => node.Node.Name)).Nodup →
      PickNode h now₁ config₁ shards nodes₁ = PickNode h now₂ config₂ shards nodes₂) := by
  refine ⟨?_, ?_⟩
  · rw [PickNode_shardNames, PickNode_shardNames]
    exact pickNames_eq_of_perm h _ _ _ hnames
  · intro hperm hnodup
    unfold PickNode
    dsimp only
    rw [ring_eq_of_perm h _ _ hnames, hperm.length_eq]
    split
    · rfl
    · split
      · rfl
      · rename_i names _
        rw [attachNodes_eq_of_perm _ _ (lastWrites names) hperm hnodup]

/-- C18 (witness): the shards 0 to 6 placed twice on the three live nodes,
listed in two different orders, give the same mapping. -/
theorem PickNode_deterministic_witness :
    Except.map shardNames
        (PickNode exampleHashing exampleNow { NumTotalShards := 7 } [0, 1, 2, 3, 4, 5, 6]
          exampleLiveNodes) =
      Except.map shardNames
        (PickNode exampleHashing exampleNow { NumTotalShards := 7 } [0, 1, 2, 3, 4, 5, 6]
          exampleLiveNodes.reverse) ∧
    PickNode exampleHashing exampleNow { NumTotalShards := 7 } [0, 1, 2, 3, 4, 5, 6]
        exampleLiveNodes =
      PickNode exampleHashing exampleNow { NumTotalShards := 7 } [0, 1, 2, 3, 4, 5, 6]
        exampleLiveNodes.reverse :=
  have hw := PickNode_deterministic exampleHashing exampleNow exampleNow
    { NumTotalShards := 7 } { NumTotalShards := 7 } [0, 1, 2, 3, 4, 5, 6]
    exampleLiveNodes exampleLiveNodes.reverse (by decide)
  ⟨hw.1, hw.2 (by decide) (by decide)⟩

theorem mul_ceilDiv_ge (shards nodes : Nat) (hn : 1 ≤ nodes) :
    shards ≤ nodes * ceilDiv shards nodes := by
  unfold ceilDiv
  have h1 := Nat.div_add_mod (shards + nodes - 1) nodes
  have h2 := Nat.mod_lt (shards + nodes - 1) (show 0 < nodes by omega)
  omega

theorem sum_indicator_eq_count (names : List String) (x : String) :
    (names.map (fun n => if x = n then 1 else 0)).sum = names.count x := by
  induction names with
  | nil => rfl
  | cons n rest ih =>
    simp only [List.map_cons, List.sum_cons, ih, List.count_cons]
    by_cases hx : x = n
    · subst hx; simp; omega
    · have hx' : ¬ n = x := fun e => hx e.symm
      simp [hx, hx']

/-- Over a list of names without repetition that holds every name assigned,
the numbers of shards accepted add up to the number of shards assigned. -/
theorem sum_accepted (names : List String) (hnodup : names.Nodup) (acc : List (Nat × String))
    (hacc : ∀ e ∈ acc, e.2 ∈ names) :
    (names.map (accepted acc)).sum = acc.length := by
  induction acc with
  | nil =>
    have hzero : accepted ([] : List (Nat × String)) = fun _ => 0 := by
      funext n
      rfl
    simp [hzero]
  | cons x rest ih =>
    have hrest := ih (fun e he => hacc e (List.mem_cons_of_mem _ he))
    have hx : x.2 ∈ names := hacc x (List.mem_cons_self _ _)
    have hsplit : names.map (accepted (x :: rest)) =
        names.map (fun n => accepted rest n + if x.2 = n then 1 else 0) := by
      apply List.map_congr_left
      intro n _
      unfold accepted
      rw [List.countP_cons]
      by_cases hxn : x.2 = n <;> simp [hxn]
    rw [hsplit, List.sum_map_add, hrest, sum_indicator_eq_count,
      List.count_eq_one_of_mem hnodup hx, List.length_cons]

/-- With live nodes of distinct names and no more shards than announced,
every shard finds a node below the cap: the caps add up to at least the number
of shards. -/
theorem assignShards_isSome (h : Hashing) (live : List RegisteredNode) (total : Nat)
    (hlive : 1 ≤ live.length)
    (hnodup : (live.map (fun node => node.Node.Name)).Nodup)
    (shards : List Nat) (acc : List (Nat × String))
    (hacc : ∀ e ∈ acc, e.2 ∈ live.map (fun node => node.Node.Name))
    (hroom : acc.length + shards.length ≤ total) :
    ∃ r, assignShards h (ring h live) (ceilDiv total live.length) shards acc = some r := by
  induction shards generalizing acc with
  | nil => exact ⟨acc, rfl⟩
  | cons s rest ih =>
    unfold assignShards
    cases hf : (clockwise (ring h live) (h.hashShard s)).find?
        (fun e => decide (accepted acc e.2 < ceilDiv total live.length)) with
    | none =>
      exfalso
      have hfull : ∀ n ∈ live.map (fun node => node.Node.Name),
          ceilDiv total live.length ≤ accepted acc n := by
        intro n hn
        obtain ⟨node, hnode, hname⟩ := List.mem_map.mp hn
        obtain ⟨e, he, hen⟩ := exists_mem_ring h live node hnode
        have := List.find?_eq_none.mp hf e ((clockwise_perm _ _).symm.subset he)
        rw [hen, hname] at this
        simpa using this
      have hsum := sum_accepted _ hnodup acc hacc
      have hle : (live.map (fun node => node.Node.Name)).length * ceilDiv total live.length ≤
          ((live.map (fun node => node.Node.Name)).map (accepted acc)).sum := by
        have := List.card_nsmul_le_sum ((live.map (fun node => node.Node.Name)).map (accepted acc))
          (ceilDiv total live.length) (by
            intro x hx
            obtain ⟨n, hn, hxn⟩ := List.mem_map.mp hx
            rw [← hxn]
            exact hfull n hn)
        simpa using this
      rw [hsum, List.length_map] at hle
      have hge := mul_ceilDiv_ge total live.length hlive
      simp only [List.length_cons] at hroom
      omega
    | some e =>
      have hmem : e ∈ ring h live := (clockwise_perm _ _).subset (List.mem_of_find?_eq_some hf)
      obtain ⟨node, hnode, hname⟩ := mem_ring h live e hmem
      apply ih
      · intro x hx
        rcases List.mem_append.mp hx with hx1 | hx1
        · exact hacc x hx1
        · simp only [List.mem_singleton] at hx1
          rw [hx1]
          exact List.mem_map.mpr ⟨node, hnode, hname⟩
      · simp only [List.length_append, List.length_cons, List.length_nil] at hroom ⊢
        omega

/-- The pick succeeds whenever a live node is left and the live nodes have
distinct names. -/
theorem PickNode_succeeds (h : Hashing) (now : Int) (config : Config) (shardIDs : List Nat)
    (nodes : List RegisteredNode) (hlive : 1 ≤ (liveNodes h now nodes).length)
    (hnodup : ((liveNodes h now nodes).map (fun node => node.Node.Name)).Nodup) :
    ∃ m, PickNode h now config shardIDs nodes = Except.ok m := by
  obtain ⟨names, hassign⟩ := assignShards_isSome h (liveNodes h now nodes) shardIDs.length
    hlive hnodup shardIDs [] (by simp) (by simp)
  have hnames := PickNode_shardNames h now config shardIDs nodes
  unfold pickNames at hnames
  rw [if_neg (by omega), hassign] at hnames
  cases hp : PickNode h now config shardIDs nodes with
  | error e => rw [hp] at hnames; simp [Except.map] at hnames
  | ok m => exact ⟨m, rfl⟩

/-- C17: uniformity of placement.  After a successful pick every shard of the
list is a key of the mapping (the keys are the shard ids, each once), and no
node is given more shards than the ceiling of the number of shard ids over
the number of live nodes; for 256 shards on 30 live nodes that is 9.  The
pick does succeed when a live node is left and the live nodes have distinct
names. -/
theorem PickNode_uniform (h : Hashing) (now : Int) (config : Config) (shardIDs : List Nat)
    (nodes : List RegisteredNode) :
    (∀ m, PickNode h now config shardIDs nodes = Except.ok m →
      (∀ s ∈ shardIDs, ∃ node, (s, node) ∈ m) ∧
      m.map Prod.fst = shardIDs.dedup ∧ (m.map Prod.fst).Nodup ∧
      ∀ name, load m name ≤ ceilDiv shardIDs.length (liveNodes h now nodes).length) ∧
    ceilDiv 256 30 = 9 ∧
    (1 ≤ (liveNodes h now nodes).length →
      ((liveNodes h now nodes).map (fun node => node.Node.Name)).Nodup →
      ∃ m, PickNode h now config shardIDs nodes = Except.ok m) := by
  refine ⟨?_, by decide, PickNode_succeeds h now config shardIDs nodes⟩
  intro m hm
  obtain ⟨_, names, hnames, hattach⟩ := PickNode_ok h now config shardIDs nodes m hm
  obtain ⟨hkeys, _, hcap⟩ := assignShards_some h _ _ _ [] names hnames
  obtain ⟨hsn, _⟩ := attachNodes_some _ (lastWrites names) m hattach
  have hfst : m.map Prod.fst = shardIDs.dedup := by
    have : (shardNames m).map Prod.fst = m.map Prod.fst := by
      simp [shardNames, List.map_map, Function.comp_def]
    rw [← this, hsn, lastWrites_keys, hkeys]
    simp
  refine ⟨?_, hfst, ?_, ?_⟩
  · intro s hs
    have : s ∈ m.map Prod.fst := by rw [hfst]; exact List.mem_dedup.mpr hs
    obtain ⟨e, he, hes⟩ := List.mem_map.mp this
    exact ⟨e.2, by rw [← hes]; exact he⟩
  · rw [hfst]
    exact List.nodup_dedup shardIDs
  · intro name
    rw [← accepted_shardNames, hsn]
    exact Nat.le_trans (accepted_lastWrites_le names name)
      (hcap (fun n => by simp [accepted]) name)

/-- C17 (witness): shards 0 to 6 on three live nodes: every shard is a key
and each node gets at most 3. -/
theorem PickNode_uniform_witness :
    PickNode exampleHashing exampleNow { NumTotalShards := 7 } [0, 1, 2, 3, 4, 5, 6]
        exampleLiveNodes = Except.ok exampleMapping ∧
    (∀ s ∈ [0, 1, 2, 3, 4, 5, 6], ∃ node, (s, node) ∈ exampleMapping) ∧
    exampleMapping.map Prod.fst = [0, 1, 2, 3, 4, 5, 6].dedup ∧
    (exampleMapping.map Prod.fst).Nodup ∧
    ∀ name, load exampleMapping name ≤
      ceilDiv [0, 1, 2, 3, 4, 5, 6].length
        (liveNodes exampleHashing exampleNow exampleLiveNodes).length :=
  ⟨rfl,
    (PickNode_uniform exampleHashing exampleNow { NumTotalShards := 7 } [0, 1, 2, 3, 4, 5, 6]
      exampleLiveNodes).1 exampleMapping rfl⟩

end nodepicker
